import Mathlib

/-!
Verification model of the CNM remote terminal relay.

The definitions below are shallow embeddings of the JavaScript sources:
`src/server/launcher.js` (session launcher and hub server),
`src/server/config.js`, and `src/server/machineRegistry.js`.
JavaScript strings are modelled as `String` (lists of characters),
machine numbers as `Nat`/`Int`, and I/O side effects as explicit action
lists returned by the modelled handlers.
-/

namespace CNM

/-- UTF-8 byte size of one character, as counted by Buffer.byteLength(s, "utf8"). -/
def chSize (c : Char) : Nat :=
  if c.val < 0x80 then 1
  else if c.val < 0x800 then 2
  else if c.val < 0x10000 then 3
  else 4

/-- UTF-8 byte length of a character list. -/
def byteLenL (l : List Char) : Nat := (l.map chSize).sum

/-- UTF-8 byte length of a string: Buffer.byteLength(s, "utf8"). -/
def byteLen (s : String) : Nat := byteLenL s.data

/-- JavaScript String.prototype.split on a single separator character:
the empty string yields [""], and separators delimit (possibly empty) fields. -/
def splitCharL (sep : Char) : List Char → List (List Char)
  | [] => [[]]
  | c :: cs =>
    match splitCharL sep cs with
    | [] => [[]]
    | r :: rs => if c = sep then [] :: r :: rs else (c :: r) :: rs

/-- data.split(sep) on strings. -/
def jsSplit (sep : Char) (s : String) : List String :=
  (splitCharL sep s.data).map String.mk

/-- arr.join("\n") for a list of lines. -/
def joinNl (ls : List String) : String :=
  ⟨List.intercalate ['\n'] (ls.map String.data)⟩

/-- arr.slice(-n) / s.slice(-n) for n > 0: the trailing n elements
(the whole list when it is shorter than n). -/
def lastN {α : Type} (n : Nat) (l : List α) : List α :=
  l.drop (l.length - n)

/-- s.slice(-n) on strings. -/
def jsSliceNeg (n : Nat) (s : String) : String :=
  ⟨lastN n s.data⟩

/-! ## Session launcher scrollback ring (src/server/launcher.js lines 20-99)

`scrollbackLines` / `scrollbackBytes` with the two caps of
`appendScrollback`: the line-count cap `MAX_SCROLLBACK` and the byte cap
`MAX_SCROLLBACK_BYTES`. -/

/-- config.SCROLLBACK_LINES (src/server/config.js line 17). -/
def SCROLLBACK_LINES : Nat := 10000

/-- MAX_SCROLLBACK = config.SCROLLBACK_LINES (launcher.js line 22). -/
def MAX_SCROLLBACK : Nat := SCROLLBACK_LINES

/-- MAX_SCROLLBACK_BYTES = 50 * 1024 * 1024 (launcher.js line 23). -/
def MAX_SCROLLBACK_BYTES : Nat := 50 * 1024 * 1024

/-- The launcher's in-memory ring: `scrollbackLines` plus the running
byte counter `scrollbackBytes`. -/
structure Scrollback where
  lines : List String
  bytes : Nat
deriving DecidableEq, Repr

/-- The initial (empty) ring. -/
def Scrollback.empty : Scrollback := ⟨[], 0⟩

/-- The while-loop of appendScrollback (launcher.js lines 86-89): drop oldest
lines while the ring would exceed the byte cap and is non-empty. -/
def evictLoop (lineBytes : Nat) : List String → Nat → List String × Nat
  | [], bytes => ([], bytes)
  | removed :: rest, bytes =>
    if bytes + lineBytes > MAX_SCROLLBACK_BYTES then
      evictLoop lineBytes rest (bytes - byteLen removed)
    else (removed :: rest, bytes)

/-- The line-count cap of appendScrollback (launcher.js lines 80-83): when
the ring is at or above MAX_SCROLLBACK lines, shift exactly one oldest
line. -/
def shiftIfFull (st : Scrollback) : Scrollback :=
  if MAX_SCROLLBACK ≤ st.lines.length then
    match st.lines with
    | [] => st
    | removed :: rest => ⟨rest, st.bytes - byteLen removed⟩
  else st

/-- The body of the for-loop of appendScrollback (launcher.js lines 76-92):
line-count cap (one shift), then byte cap (while-loop), then push. -/
def appendOneLine (st : Scrollback) (line : String) : Scrollback :=
  let lineBytes := byteLen line
  let st1 := shiftIfFull st
  let p := evictLoop lineBytes st1.lines st1.bytes
  ⟨p.1 ++ [line], p.2 + lineBytes⟩

/-- appendScrollback(data) (launcher.js lines 74-94): split on newline and
append each candidate line. -/
def appendScrollback (st : Scrollback) (data : String) : Scrollback :=
  (jsSplit '\n' data).foldl appendOneLine st

/-- getScrollback() (launcher.js lines 97-99): the entire ring joined by
newlines. -/
def getScrollback (st : Scrollback) : String := joinNl st.lines

/-! ## Frames emitted by the launcher to a pipe peer -/

/-- A newline-delimited JSON frame written by the launcher on the local
session channel. A `none` field is an absent JSON key. -/
structure SLFrame where
  type : String
  data : Option String
  state : Option String
  reason : Option String
deriving DecidableEq, Repr

/-- The scrollback frame: JSON.stringify of type "scrollback" with data. -/
def SLFrame.scrollbackF (d : String) : SLFrame := ⟨"scrollback", some d, none, none⟩

/-- A status frame with a state and no reason. -/
def SLFrame.statusF (st : String) : SLFrame := ⟨"status", none, some st, none⟩

/-- An output frame carrying one PTY chunk. -/
def SLFrame.outputF (d : String) : SLFrame := ⟨"output", some d, none, none⟩

/-- Frames written to a freshly connected pipe peer by the connection handler
(launcher.js lines 137-146): the scrollback frame when getScrollback() is
non-empty (JavaScript truthiness of the string), then status connected. -/
def subscribeFrames (st : Scrollback) : List SLFrame :=
  (if getScrollback st = "" then [] else [SLFrame.scrollbackF (getScrollback st)])
    ++ [SLFrame.statusF "connected"]

/-- The whole frame sequence observed by one peer: the subscribe-time frames
followed by the broadcast output frames for each later PTY chunk
(launcher.js lines 102-117). -/
def peerTrace (st : Scrollback) (chunks : List String) : List SLFrame :=
  subscribeFrames st ++ chunks.map SLFrame.outputF

/-! ## Registry heartbeat record (launcher.js lines 229-252) -/

/-- The JSON document written by updateRegistry(). -/
structure SessionInfo where
  id : String
  pipe : String
  cwd : String
  pid : Nat
  started : Int
  lastSeen : Int
  clientCount : Nat
  preview : String
  status : String
deriving DecidableEq, Repr

/-- The preview computed by updateRegistry (launcher.js lines 233-234):
the last 8 scrollback lines joined, then the last 500 characters. -/
def previewOf (st : Scrollback) : String :=
  jsSliceNeg 500 (joinNl (lastN 8 st.lines))

/-- updateRegistry() (launcher.js lines 230-252) as a pure function of the
ring and the ambient launcher state. -/
def updateRegistry (st : Scrollback) (sessionId pipeName workingDir : String)
    (pid : Nat) (startTime now : Int) (clientCount : Nat) : SessionInfo :=
  { id := sessionId
    pipe := pipeName
    cwd := workingDir
    pid := pid
    started := startTime
    lastSeen := now
    clientCount := clientCount
    preview := previewOf st
    status := if 0 < clientCount then "connected" else "idle" }

/-! ## JavaScript character classes and small string helpers -/

/-- The character class of the regex \s (ECMAScript WhiteSpace plus
LineTerminator), used by the sanitizer's strip step and by trim(). -/
def jsWhitespace (c : Char) : Bool :=
  c.val = 0x9 || c.val = 0xA || c.val = 0xB || c.val = 0xC || c.val = 0xD ||
  c.val = 0x20 || c.val = 0xA0 || c.val = 0x1680 ||
  (0x2000 ≤ c.val && c.val ≤ 0x200A) ||
  c.val = 0x2028 || c.val = 0x2029 || c.val = 0x202F || c.val = 0x205F ||
  c.val = 0x3000 || c.val = 0xFEFF

/-- The path separator class [/\\] of filename.split in sanitizeFilename. -/
def isSepChar (c : Char) : Bool := c = '/' || c = '\\'

/-- The reserved class [<>:"/\\|?*\x00-\x1f] of sanitizeFilename's replace. -/
def isReservedChar (c : Char) : Bool :=
  c = '<' || c = '>' || c = ':' || c = '"' || c = '/' || c = '\\' ||
  c = '|' || c = '?' || c = '*' || c.val ≤ 0x1f

/-- The class [\s.] stripped from both ends by sanitizeFilename. -/
def isSpaceDot (c : Char) : Bool := jsWhitespace c || c = '.'

/-- Split on a character class, JS String.prototype.split semantics. -/
def splitPredL (p : Char → Bool) : List Char → List (List Char)
  | [] => [[]]
  | c :: cs =>
    match splitPredL p cs with
    | [] => [[]]
    | r :: rs => if p c then [] :: r :: rs else (c :: r) :: rs

/-- Last element of a list with a default (Array.prototype.pop on the
never-empty result of split). -/
def lastD {α : Type} (l : List α) (d : α) : α := (l.getLast?).getD d

/-- Remove the longest suffix whose characters satisfy p. -/
def dropRightWhileP (p : Char → Bool) (l : List Char) : List Char :=
  (l.reverse.dropWhile p).reverse

/-- The replace(/^[\s.]+|[\s.]+$/g, "") step: remove the leading and the
trailing run of whitespace-or-dot characters. -/
def stripSpaceDot (l : List Char) : List Char :=
  dropRightWhileP isSpaceDot (l.dropWhile isSpaceDot)

/-- JS String.prototype.lastIndexOf for one character: -1 when absent. -/
def lastIndexOfDot (l : List Char) : Int :=
  match l.reverse.findIdx? (fun c => c = '.') with
  | some j => ((l.length - 1 - j : Nat) : Int)
  | none => -1

/-- JS l.slice(0, e) where e may be negative (counts from the end). -/
def jsSliceTo (l : List Char) (e : Int) : List Char :=
  let endIdx : Int := if e < 0 then (l.length : Int) + e else e
  l.take (max 0 (min endIdx (l.length : Int))).toNat

/-! ## sanitizeFilename (src/server/launcher.js lines 855-880) -/

/-- The truncation step of sanitizeFilename (lines 873-877): cut to 255
characters while preserving the extension. -/
def truncate255 (name : List Char) : List Char :=
  let lastDot := lastIndexOfDot name
  let ext := if 0 < lastDot then name.drop lastDot.toNat else []
  jsSliceTo name (255 - (ext.length : Int)) ++ ext

/-- The reserved-character replacement of sanitizeFilename (line 862). -/
def replReserved (c : Char) : Char := if isReservedChar c then '_' else c

/-- sanitizeFilename on the character list of its argument. -/
def sanitizeCore (l : List Char) : Option (List Char) :=
  if l.isEmpty then none
  else
    let name := lastD (splitPredL isSepChar l) []
    let name := name.map replReserved
    let name := stripSpaceDot name
    if name = [] ∨ name = ['.'] ∨ name = ['.', '.'] then none
    else
      let name := if 255 < name.length then truncate255 name else name
      some name

/-- sanitizeFilename(filename) for a string argument. Among strings only ""
is falsy, so the initial !filename guard rejects exactly the empty string. -/
def sanitizeFilename (s : String) : Option String :=
  (sanitizeCore s.data).map String.mk

/-- sanitizeFilename on a possibly-absent argument (undefined and null are
falsy and give null, as does a null result fed back in). -/
def sanitizeO : Option String → Option String
  | none => none
  | some s => sanitizeFilename s

/-! ## Session registry scan (launcher.js lines 800-852) -/

/-- One registry file's parsed JSON document; a file that fails to parse is
modelled as `none` where a `List (Option RegRecord)` is scanned. -/
structure RegRecord where
  id : String
  cwd : String
  pid : Nat
  started : Option Int
  lastSeen : Option Int
  pipe : String
  preview : Option String
  clientCount : Option Nat
  status : Option String
deriving DecidableEq, Repr

/-- JavaScript a || b for numbers: 0 is falsy. -/
def jsOrInt (a : Option Int) (b : Int) : Int :=
  match a with
  | some v => if v = 0 then b else v
  | none => b

/-- JavaScript a || b for strings: "" is falsy. -/
def jsOrStr (a : Option String) (b : String) : String :=
  match a with
  | some v => if v = "" then b else v
  | none => b

/-- SESSION_TIMEOUT_MS (launcher.js line 763). -/
def SESSION_TIMEOUT_MS : Int := 30000

/-- An element of the list returned by listSessions(). -/
structure SessEntry where
  id : String
  cwd : String
  pid : Nat
  started : Option Int
  lastSeen : Option Int
  pipe : String
  preview : String
  clientCount : Nat
  status : String
deriving DecidableEq, Repr

/-- listSessions() (launcher.js lines 801-846): skip files that fail to
parse, skip (and unlink) records older than SESSION_TIMEOUT_MS. -/
def listSessions (now : Int) (files : List (Option RegRecord)) : List SessEntry :=
  files.filterMap (fun f =>
    match f with
    | none => none
    | some d =>
      let seen := jsOrInt d.lastSeen (jsOrInt d.started 0)
      if SESSION_TIMEOUT_MS < now - seen then none
      else some
        { id := d.id
          cwd := d.cwd
          pid := d.pid
          started := d.started
          lastSeen := d.lastSeen
          pipe := d.pipe
          preview := jsOrStr d.preview ""
          clientCount := d.clientCount.getD 0
          status := jsOrStr d.status "unknown" })

/-- getSession(sessionId) (launcher.js lines 849-852). -/
def getSession (now : Int) (files : List (Option RegRecord)) (sid : String) :
    Option SessEntry :=
  (listSessions now files).find? (fun s => s.id = sid)

/-! ## File upload (launcher.js lines 883-991, config.js lines 30-32) -/

/-- config.UPLOAD_ENABLED (config.js line 31). -/
def UPLOAD_ENABLED : Bool := true

/-- config.MAX_UPLOAD_SIZE = 10 * 1024 * 1024 (config.js line 32). -/
def MAX_UPLOAD_SIZE : Nat := 10 * 1024 * 1024

/-- path.join(cwd, name) for a single segment containing no separators and
not equal to "." or ".." (the only shapes a sanitized name can have). -/
def nodeJoin (cwd name : String) : String := cwd ++ "\\" ++ name

/-- s.startsWith(pre). -/
def strStartsWith (s pre : String) : Bool := pre.data.isPrefixOf s.data

/-- The upload_file request payload. `data` is the base64 payload after
decoding: Buffer.from(str, "base64") never throws on a string, so the
handler's "Invalid file data" catch is unreachable and the decode is
modelled as the decoded byte list itself. -/
structure UploadMsg where
  sessionId : Option String
  filename : Option String
  data : List UInt8
deriving DecidableEq, Repr

/-- The upload_result frame sent back to the client. -/
structure UploadResult where
  sessionId : Option String
  success : Bool
  filename : Option String
  error : Option String
  path : Option String
  size : Option Nat
deriving DecidableEq, Repr

/-- JavaScript a || b for option strings (empty string falsy). -/
def jsOrOpt (a b : Option String) : Option String :=
  match a with
  | some v => if v = "" then b else some v
  | none => b

/-- handleFileUpload (launcher.js lines 883-991) as a pure function. The
second component is the writeFileSync effect: the destination path and the
bytes written, `none` when nothing is written. -/
def handleFileUpload (now : Int) (files : List (Option RegRecord))
    (msg : UploadMsg) (activeSessionId : Option String) :
    UploadResult × Option (String × List UInt8) :=
  let targetSessionId := jsOrOpt msg.sessionId activeSessionId
  if ¬ UPLOAD_ENABLED then
    (⟨targetSessionId, false, msg.filename, some "File uploads are disabled",
      none, none⟩, none)
  else
    match targetSessionId.bind (getSession now files) with
    | none =>
      (⟨targetSessionId, false, msg.filename, some "Session not found",
        none, none⟩, none)
    | some session =>
      match sanitizeO msg.filename with
      | none =>
        (⟨targetSessionId, false, msg.filename, some "Invalid filename",
          none, none⟩, none)
      | some safeName =>
        if MAX_UPLOAD_SIZE < msg.data.length then
          (⟨targetSessionId, false, some safeName,
            some "File exceeds maximum size of 10MB", none, none⟩, none)
        else
          let destPath := nodeJoin session.cwd safeName
          if ¬ strStartsWith destPath session.cwd then
            (⟨targetSessionId, false, some safeName,
              some "Invalid destination path", none, none⟩, none)
          else
            (⟨targetSessionId, true, some safeName, none, some destPath,
              some msg.data.length⟩, some (destPath, msg.data))

/-! ## Pipe read path of the hub (launcher.js lines 1781-1830) -/

/-- MAX_PIPE_BUFFER_SIZE = 1024 * 1024 (launcher.js line 770). -/
def MAX_PIPE_BUFFER_SIZE : Nat := 1024 * 1024

/-- A JSON object travelling between the hub and a pipe or the client on the
relay path; absent keys are `none`. -/
structure PipeMsg where
  type : String
  data : Option String
  message : Option String
  state : Option String
  reason : Option String
  sessionId : Option String
deriving DecidableEq, Repr

/-- str.trim(). -/
def jsTrim (s : String) : String :=
  ⟨dropRightWhileP jsWhitespace (s.data.dropWhile jsWhitespace)⟩

/-- The for-loop over complete lines (launcher.js lines 1806-1829): blank
lines skipped, pong swallowed, parsed frames stamped with the sessionId,
unparseable lines wrapped as output frames. `parse` models JSON.parse;
`none` is a parse failure. -/
def processPipeLines (sid : String) (parse : String → Option PipeMsg) :
    List String → List PipeMsg
  | [] => []
  | line :: rest =>
    let tail := processPipeLines sid parse rest
    if (jsTrim line).data.isEmpty then tail
    else
      match parse line with
      | some m =>
        if m.type = "pong" then tail else { m with sessionId := some sid } :: tail
      | none =>
        { type := "output", data := some line, message := none, state := none,
          reason := none, sessionId := some sid } :: tail

/-- Result of one pipeSocket data event: the new accumulation buffer, the
frames sent to the client WebSocket, and whether the pipe was destroyed. -/
structure PipeDataResult where
  buffer : String
  sent : List PipeMsg
  destroyed : Bool
deriving DecidableEq, Repr

/-- pipeSocket.on("data") (launcher.js lines 1781-1830): append the chunk,
destroy on buffer overflow (with error + status frames), otherwise split on
newline, keep the trailing incomplete line, and relay the complete lines. -/
def pipeData (sid : String) (parse : String → Option PipeMsg)
    (buffer chunk : String) : PipeDataResult :=
  let buf := buffer ++ chunk
  if MAX_PIPE_BUFFER_SIZE < buf.length then
    { buffer := buf
      sent :=
        [{ type := "error", data := none,
           message := some "Buffer overflow - connection reset", state := none,
           reason := none, sessionId := some sid },
         { type := "status", data := none, message := none,
           state := some "disconnected", reason := some "Buffer overflow",
           sessionId := some sid }]
      destroyed := true }
  else
    let lines := jsSplit '\n' buf
    { buffer := (lines.getLast?).getD ""
      sent := processPipeLines sid parse lines.dropLast
      destroyed := false }

/-! ## Per-client pipe table and connectToSession (launcher.js 1604-1856) -/

/-- One pipeConn as created by connectToSession (launcher.js line 1750):
only the accumulation buffer and the connected flag are observable in the
synchronous protocol logic. -/
structure PipeConn where
  buffer : String
  connected : Bool
deriving DecidableEq, Repr

/-- The per-client hub state: pipeSockets (a Map keyed by sessionId,
modelled as an association list in insertion order) and activeSessionId. -/
structure ClientState where
  pipeSockets : List (String × PipeConn)
  activeSessionId : Option String
deriving DecidableEq, Repr

/-! ## Machine registry (src/server/machineRegistry.js) -/

/-- AGENT_HEARTBEAT_TIMEOUT (machineRegistry.js line 7). -/
def AGENT_HEARTBEAT_TIMEOUT : Int := 45000

/-- One project entry of listProjects() (launcher.js lines 1051-1071). -/
structure ProjectInfo where
  id : String
  cwd : String
  isActive : Bool
  isClaudeProject : Bool
  pid : Option Nat
  started : Option Int
  lastSeen : Option Int
  preview : String
  clientCount : Nat
deriving DecidableEq, Repr

/-- One machine record of the registry Map (machineRegistry.js). The live
socket handle is modelled by the boolean `ws` (a handle is bound or not). -/
structure Machine where
  id : String
  hostname : String
  address : Option String
  isLocal : Bool
  projects : List ProjectInfo
  sessions : List SessEntry
  status : String
  lastSeen : Int
  agentVersion : Option String
  ws : Bool
deriving DecidableEq, Repr

/-- One element of the list returned by listMachines(). -/
structure MachineEntry where
  id : String
  hostname : String
  address : Option String
  isLocal : Bool
  projectCount : Nat
  sessionCount : Nat
  status : String
deriving DecidableEq, Repr

/-- The sort comparator of listMachines (machineRegistry.js lines 219-223):
local machines first, then hostname order (localeCompare modelled by
code-point order). -/
def machineLe (a b : MachineEntry) : Bool :=
  if a.isLocal && !b.isLocal then true
  else if !a.isLocal && b.isLocal then false
  else decide (a.hostname ≤ b.hostname)

/-- Insert into a sorted list (comparison sorts agree up to permutation,
which is all the protocol observes). -/
def insertLe {α : Type} (le : α → α → Bool) (x : α) : List α → List α
  | [] => [x]
  | y :: ys => if le x y then x :: y :: ys else y :: insertLe le x ys

/-- A comparison sort by the given comparator. -/
def sortLe {α : Type} (le : α → α → Bool) : List α → List α
  | [] => []
  | x :: xs => insertLe le x (sortLe le xs)

/-- The projection pushed per machine by listMachines (machineRegistry.js
lines 207-215). -/
def machineEntry (m : Machine) : MachineEntry :=
  { id := m.id
    hostname := m.hostname
    address := m.address
    isLocal := m.isLocal
    projectCount := m.projects.length
    sessionCount := m.sessions.length
    status := m.status }

/-- The per-machine body of listMachines' loop (machineRegistry.js lines
200-216): skip disconnected machines gone past twice the heartbeat
timeout. -/
def listMachineFilter (now : Int) (m : Machine) : Option MachineEntry :=
  if m.status = "disconnected" ∧ AGENT_HEARTBEAT_TIMEOUT * 2 < now - m.lastSeen
  then none
  else some (machineEntry m)

/-- listMachines() (machineRegistry.js lines 197-226). -/
def listMachines (now : Int) (ms : List Machine) : List MachineEntry :=
  sortLe machineLe (ms.filterMap (listMachineFilter now))

/-- The per-machine body of _cleanupStaleMachines' loop (machineRegistry.js
lines 280-307): never touch the local machine; flip a silent connected
machine to disconnected (dropping its socket); delete a machine
disconnected past one hour; `none` is deletion from the Map. -/
def cleanupMachine (now : Int) (m : Machine) : Option Machine :=
  if m.isLocal then some m
  else
    let age := now - m.lastSeen
    let m1 :=
      if m.status = "connected" ∧ AGENT_HEARTBEAT_TIMEOUT < age then
        { m with status := "disconnected", ws := false }
      else m
    if m1.status = "disconnected" ∧ 60 * 60 * 1000 < age then none else some m1

/-- _cleanupStaleMachines() (machineRegistry.js lines 277-308). -/
def cleanupStaleMachines (now : Int) (ms : List Machine) : List Machine :=
  ms.filterMap (cleanupMachine now)

/-- updateLocalMachine(projects, sessions) (machineRegistry.js 165-172). -/
def updateLocalMachine (now : Int) (projects : List ProjectInfo)
    (sessions : List SessEntry) (ms : List Machine) : List Machine :=
  ms.map (fun m =>
    if m.id = "LOCAL" then
      { m with projects := projects, sessions := sessions, lastSeen := now }
    else m)

/-! ## Project and folder listings (launcher.js lines 993-1095) -/

/-- One directory entry of readdirSync(PROJECTS_BASE_DIR). -/
structure DirEnt where
  name : String
  isDirectory : Bool
deriving DecidableEq, Repr

/-- The filesystem and clock inputs of the hub handlers. -/
structure HubEnv where
  now : Int
  files : List (Option RegRecord)
  homeDir : String
  baseDirExists : Bool
  dirEntries : List DirEnt
  existsDir : String → Bool

/-- PROJECTS_BASE_DIR = join(homedir(), "Documents", "Code"). -/
def projectsBaseDir (env : HubEnv) : String :=
  env.homeDir ++ "\\Documents\\Code"

/-- One element of listCodeFolders(). -/
structure FolderInfo where
  name : String
  path : String
  hasSession : Bool
deriving DecidableEq, Repr

/-- The sort comparator of listCodeFolders (launcher.js lines 1015-1020). -/
def folderLe (a b : FolderInfo) : Bool :=
  if a.hasSession && !b.hasSession then true
  else if !a.hasSession && b.hasSession then false
  else decide (a.name ≤ b.name)

/-- listCodeFolders() (launcher.js lines 997-1027). -/
def listCodeFolders (env : HubEnv) : List FolderInfo :=
  if ¬ env.baseDirExists then []
  else
    let activeIds := (listSessions env.now env.files).map (fun s => s.id)
    sortLe folderLe
      ((env.dirEntries.filter (fun e =>
          e.isDirectory && !(e.name.startsWith "."))).map (fun e =>
        { name := e.name
          path := projectsBaseDir env ++ "\\" ++ e.name
          hasSession := activeIds.contains e.name }))

/-- The sort comparator of listProjects (launcher.js lines 1072-1081). -/
def projectLe (a b : ProjectInfo) : Bool :=
  if a.isActive && !b.isActive then true
  else if !a.isActive && b.isActive then false
  else if a.isClaudeProject && !b.isClaudeProject then true
  else if !a.isClaudeProject && b.isClaudeProject then false
  else decide (a.id ≤ b.id)

/-- listProjects() (launcher.js lines 1041-1095): directories merged with
live session data; isClaudeProject tests existsSync(join(path, ".claude")). -/
def listProjects (env : HubEnv) : List ProjectInfo :=
  if ¬ env.baseDirExists then []
  else
    let sessions := listSessions env.now env.files
    sortLe projectLe
      ((env.dirEntries.filter (fun e =>
          e.isDirectory && !(e.name.startsWith "."))).map (fun e =>
        let session := sessions.find? (fun s => s.id = e.name)
        let projectPath := projectsBaseDir env ++ "\\" ++ e.name
        { id := e.name
          cwd := (session.map (fun s => s.cwd)).getD projectPath
          isActive := session.isSome
          isClaudeProject := env.existsDir (projectPath ++ "\\.claude")
          pid := session.bind (fun s => if s.pid = 0 then none else some s.pid)
          started := session.bind (fun s => s.started)
          lastSeen := session.bind (fun s => s.lastSeen)
          preview := (session.map (fun s => s.preview)).getD ""
          clientCount := (session.map (fun s => s.clientCount)).getD 0 }))

/-! ## Project-name sanitizer and session spawning (launcher.js 1097-1281) -/

/-- sanitizeProjectName (launcher.js lines 1186-1200). -/
def sanitizeProjectName (s : Option String) : Option String :=
  match s with
  | none => none
  | some str =>
    if str = "" then none
    else
      let kept := str.data.filter (fun c =>
        ('a' ≤ c && c ≤ 'z') || ('A' ≤ c && c ≤ 'Z') ||
        ('0' ≤ c && c ≤ '9') || c = '_' || c = '-')
      if kept.isEmpty || 50 < kept.length then none
      else if ["con", "prn", "aux", "nul", "com1", "lpt1"].contains
          (String.mk (kept.map Char.toLower)) then none
      else some ⟨kept⟩

/-- The create_session_result frame payload. -/
structure CreateSessionResult where
  success : Bool
  projectName : Option String
  path : Option String
  error : Option String
deriving DecidableEq, Repr

/-- The start_folder_session_result frame payload. -/
structure StartFolderResult where
  success : Bool
  folderName : Option String
  path : Option String
  error : Option String
  alreadyRunning : Option Bool
  skipPermissions : Option Bool
deriving DecidableEq, Repr

/-! ## Client WebSocket protocol -/

/-- A parsed inbound client message (the tagged union dispatched by the
switch at launcher.js lines 1652-1717). -/
inductive ClientMsg where
  | listSessionsM : ClientMsg
  | listMachinesM : ClientMsg
  | connectSessionM (sessionId : String) : ClientMsg
  | pingM : ClientMsg
  | inputM (data : String) : ClientMsg
  | controlM (key : String) : ClientMsg
  | resizeM (cols rows : Nat) : ClientMsg
  | uploadFileM (m : UploadMsg) : ClientMsg
  | createSessionM (projectName : Option String) : ClientMsg
  | listProjectsM : ClientMsg
  | listFoldersM : ClientMsg
  | startFolderSessionM (folderName : Option String) (skipPermissions : Bool) : ClientMsg
  | unknownM (t : String) : ClientMsg
deriving DecidableEq, Repr

/-- A frame sent by the hub on the client WebSocket. -/
inductive HubFrame where
  | errorF (message : String) (sessionId : Option String) : HubFrame
  | statusF (sessionId : Option String) (state : String) (reason : Option String) : HubFrame
  | pongF : HubFrame
  | sessionsF (sessions : List SessEntry) : HubFrame
  | machinesF (machines : List MachineEntry) : HubFrame
  | projectsF (projects : List ProjectInfo) : HubFrame
  | foldersF (folders : List FolderInfo) : HubFrame
  | uploadResultF (r : UploadResult) : HubFrame
  | createResultF (r : CreateSessionResult) : HubFrame
  | startFolderResultF (r : StartFolderResult) : HubFrame
  | relayF (m : PipeMsg) : HubFrame
deriving DecidableEq, Repr

/-- A side effect of the hub's client-facing handlers. -/
inductive HubAction where
  | send (f : HubFrame) : HubAction
  | dial (pipe : String) : HubAction
  | pipeWrite (sid : String) (m : ClientMsg) : HubAction
  | writeFile (path : String) (bytes : List UInt8) : HubAction
  | mkdir (path : String) : HubAction
  | spawnLauncher (name path : String) (skipPermissions : Bool) : HubAction
  | close (code : Nat) : HubAction
deriving DecidableEq, Repr

/-- connectToSession(sessionId) (launcher.js lines 1724-1856), synchronous
part: the already-attached fast path, the unknown-session error path, and
the dial path that records a fresh unconnected pipeConn. -/
def connectToSession (now : Int) (files : List (Option RegRecord))
    (cs : ClientState) (sid : String) : ClientState × List HubAction :=
  match cs.pipeSockets.find? (fun p => p.1 = sid) with
  | some p =>
    ({ cs with activeSessionId := some sid },
     if p.2.connected then [.send (.statusF (some sid) "connected" none)] else [])
  | none =>
    match getSession now files sid with
    | none =>
      (cs, [.send (.errorF ("Session \"" ++ sid ++ "\" not found") (some sid))])
    | some session =>
      ({ pipeSockets := cs.pipeSockets ++ [(sid, ⟨"", false⟩)],
         activeSessionId := some sid },
       [.dial session.pipe])

/-- handleCreateSession (launcher.js lines 1203-1281); mkdirSync and spawn
are modelled as succeeding (their failure paths only emit a failure frame). -/
def handleCreateSession (env : HubEnv) (projectName : Option String) :
    List HubAction :=
  match sanitizeProjectName projectName with
  | none =>
    [.send (.createResultF ⟨false, projectName, none,
      some "Invalid project name (use only letters, numbers, hyphens, underscores)"⟩)]
  | some safeName =>
    let projectDir := projectsBaseDir env ++ "\\" ++ safeName
    (if env.existsDir projectDir then [] else [.mkdir projectDir]) ++
    [.spawnLauncher safeName projectDir false,
     .send (.createResultF ⟨true, some safeName, some projectDir, none⟩)]

/-- handleStartFolderSession (launcher.js lines 1098-1183). -/
def handleStartFolderSession (env : HubEnv) (folderName : Option String)
    (skipPermissions : Bool) : List HubAction :=
  match sanitizeProjectName folderName with
  | none =>
    [.send (.startFolderResultF ⟨false, folderName, none,
      some "Invalid folder name", none, none⟩)]
  | some safeName =>
    let folderPath := projectsBaseDir env ++ "\\" ++ safeName
    if ¬ env.existsDir folderPath then
      [.send (.startFolderResultF ⟨false, some safeName, none,
        some "Folder does not exist", none, none⟩)]
    else if (listSessions env.now env.files).any (fun s => s.id = safeName) then
      [.send (.startFolderResultF ⟨true, some safeName, some folderPath,
        none, some true, none⟩)]
    else
      [.spawnLauncher safeName folderPath skipPermissions,
       .send (.startFolderResultF ⟨true, some safeName, some folderPath,
        none, none, some skipPermissions⟩)]

/-- The rate-limiting counters of one client connection (launcher.js
lines 1609-1612). -/
structure RateState where
  messageCount : Nat
  lastRateReset : Int
deriving DecidableEq, Repr

/-- MAX_MESSAGES_PER_SECOND (launcher.js line 1612). -/
def MAX_MESSAGES_PER_SECOND : Nat := 10

/-- The whole per-connection state of one client: rate counters, pipe
table, and the shared machine registry threaded through. -/
structure ConnState where
  rate : RateState
  cs : ClientState
  registry : List Machine
deriving DecidableEq, Repr

/-- The switch over msg.type (launcher.js lines 1652-1717). -/
def dispatch (env : HubEnv) (st : ConnState) (m : ClientMsg) :
    ConnState × List HubAction :=
  match m with
  | .listSessionsM =>
    (st, [.send (.sessionsF (listSessions env.now env.files))])
  | .listMachinesM =>
    let reg := updateLocalMachine env.now (listProjects env)
      (listSessions env.now env.files) st.registry
    ({ st with registry := reg }, [.send (.machinesF (listMachines env.now reg))])
  | .connectSessionM sid =>
    let r := connectToSession env.now env.files st.cs sid
    ({ st with cs := r.1 }, r.2)
  | .pingM => (st, [.send .pongF])
  | .inputM _ | .controlM _ | .resizeM _ _ =>
    match st.cs.activeSessionId with
    | some sid =>
      match st.cs.pipeSockets.find? (fun p => p.1 = sid) with
      | some p => (st, if p.2.connected then [.pipeWrite sid m] else [])
      | none => (st, [])
    | none => (st, [])
  | .uploadFileM um =>
    let r := handleFileUpload env.now env.files um st.cs.activeSessionId
    (st, (match r.2 with
          | some w => [.writeFile w.1 w.2]
          | none => []) ++ [.send (.uploadResultF r.1)])
  | .createSessionM p => (st, handleCreateSession env p)
  | .listProjectsM => (st, [.send (.projectsF (listProjects env))])
  | .listFoldersM => (st, [.send (.foldersF (listCodeFolders env))])
  | .startFolderSessionM f sp => (st, handleStartFolderSession env f sp)
  | .unknownM _ => (st, [])

/-- One ws.on("message") event (launcher.js lines 1634-1721): the rate
limiter runs first; a limited message gets the error frame and is dropped;
a JSON.parse failure (raw = none) is only logged; otherwise dispatch. -/
def wsMessage (env : HubEnv) (st : ConnState) (now : Int)
    (raw : Option ClientMsg) : ConnState × List HubAction :=
  let r0 := st.rate
  let r1 := if 1000 ≤ now - r0.lastRateReset then RateState.mk 0 now else r0
  let r2 := RateState.mk (r1.messageCount + 1) r1.lastRateReset
  if MAX_MESSAGES_PER_SECOND < r2.messageCount then
    ({ st with rate := r2 }, [.send (.errorF "Rate limit exceeded" none)])
  else
    match raw with
    | none => ({ st with rate := r2 }, [])
    | some m => dispatch env { st with rate := r2 } m

/-- The states and actions along a sequence of message events: each element
pairs the state in force when the message arrived with the actions it
produced. -/
def wsSteps (env : HubEnv) (st : ConnState) :
    List (Int × Option ClientMsg) → List (ConnState × List HubAction)
  | [] => []
  | e :: rest =>
    let r := wsMessage env st e.1 e.2
    (st, r.2) :: wsSteps env r.1 rest

/-- The connection-open logic (launcher.js lines 1589-1631): auth failure
sends an error frame and closes with 4001; success sends the initial
sessions snapshot. -/
def wsConnect (authValid : Bool) (env : HubEnv) : List HubAction :=
  if ¬ authValid then
    [.send (.errorF "Authentication failed" none), .close 4001]
  else
    [.send (.sessionsF (listSessions env.now env.files))]

/-! ## ANSI stripping (stripAnsi in the repo's attach tool) and the
spec-side preview definition -/

/-- Tail of a CSI escape after "ESC [": consume [0-9;]*, then one ASCII
letter; the remainder after the match, or none when the pattern fails. -/
def csiTail : List Char → Option (List Char)
  | [] => none
  | c :: rest =>
    if c.isDigit || c = ';' then csiTail rest
    else if ('a' ≤ c && c ≤ 'z') || ('A' ≤ c && c ≤ 'Z') then some rest
    else none

/-- A CSI match attempt at the head of the input: "ESC [" then csiTail. -/
def tryCSI : List Char → Option (List Char)
  | c1 :: c2 :: r2 => if c1 = '\x1b' ∧ c2 = '[' then csiTail r2 else none
  | _ => none

/-- replace(/\x1b\[[0-9;]*[a-zA-Z]/g, ""), with a fuel argument for
structural recursion: every step strictly shortens the input
(tryCSI_length), so any fuel at least the input length computes the scan
to completion; the scanner advances one position on a failed match, as the
regex engine does. -/
def stripCSIFuel : Nat → List Char → List Char
  | 0, l => l
  | _ + 1, [] => []
  | fuel + 1, c :: rest =>
    match tryCSI (c :: rest) with
    | some rem => stripCSIFuel fuel rem
    | none => c :: stripCSIFuel fuel rest

/-- replace(/\x1b\[[0-9;]*[a-zA-Z]/g, ""): remove every CSI sequence. -/
def stripCSI (l : List Char) : List Char := stripCSIFuel l.length l

/-- Tail of an OSC escape after "ESC ]": consume [^\x07]* then BEL. -/
def oscTail : List Char → Option (List Char)
  | [] => none
  | c :: rest => if c = '\x07' then some rest else oscTail rest

/-- An OSC match attempt at the head of the input: "ESC ]" then oscTail. -/
def tryOSC : List Char → Option (List Char)
  | c1 :: c2 :: r2 => if c1 = '\x1b' ∧ c2 = ']' then oscTail r2 else none
  | _ => none

/-- replace(/\x1b\][^\x07]*\x07/g, ""), structurally recursive on fuel;
any fuel at least the input length completes the scan (tryOSC_length). -/
def stripOSCFuel : Nat → List Char → List Char
  | 0, l => l
  | _ + 1, [] => []
  | fuel + 1, c :: rest =>
    match tryOSC (c :: rest) with
    | some rem => stripOSCFuel fuel rem
    | none => c :: stripOSCFuel fuel rest

/-- replace(/\x1b\][^\x07]*\x07/g, ""): remove every OSC sequence. -/
def stripOSC (l : List Char) : List Char := stripOSCFuel l.length l

/-- stripAnsi (CSI replace, then OSC replace), as in the repository's
attach tool. -/
def stripAnsi (s : String) : String := ⟨stripOSC (stripCSI s.data)⟩

/-- Modelled from the spec: the preview the specification describes for the
session record, "last ≤ 2 KB of ANSI-stripped terminal output, truncated to
last 8 lines". Defined only to compare against the launcher's preview. -/
def specPreview (output : String) : String :=
  joinNl (lastN 8 (jsSplit '\n' (jsSliceNeg 2048 (stripAnsi output))))

/-! ## Concrete fixtures used by counterexamples and witnesses -/

/-- A single PTY line of 52 000 ASCII characters — over 50 KB under any
reading of the unit. -/
def longLine : String := ⟨List.replicate 52000 'a'⟩

/-- A ring whose only line is a CSI-coloured word. -/
def ansiRing : Scrollback := appendScrollback Scrollback.empty "\x1b[31mabc"

/-- A single line one byte over the scrollback byte cap. -/
def bigChunk : String := ⟨List.replicate (MAX_SCROLLBACK_BYTES + 1) 'a'⟩

/-- A 257-character filename: 254 b characters, a space, then two c
characters; its sanitized form ends in a space. -/
def overlongName : String := ⟨List.replicate 254 'b' ++ [' ', 'c', 'c']⟩

/-!
# Theorems

Supporting lemmas first, then one theorem (with witness or counterexample)
per claim of the specification review.
-/

theorem csiTail_length : ∀ (l r : List Char), csiTail l = some r → r.length < l.length := by
  intro l
  induction l with
  | nil => intro r h; simp [csiTail] at h
  | cons c rest ih =>
    intro r h
    simp only [csiTail] at h
    by_cases h1 : (c.isDigit || c = ';') = true
    · rw [if_pos h1] at h
      exact Nat.lt_trans (ih r h) (Nat.lt_succ_self _)
    · rw [if_neg h1] at h
      by_cases h2 : (('a' ≤ c && c ≤ 'z') || ('A' ≤ c && c ≤ 'Z')) = true
      · rw [if_pos h2] at h
        cases h
        exact Nat.lt_succ_self _
      · rw [if_neg h2] at h
        cases h

theorem oscTail_length : ∀ (l r : List Char), oscTail l = some r → r.length < l.length := by
  intro l
  induction l with
  | nil => intro r h; simp [oscTail] at h
  | cons c rest ih =>
    intro r h
    simp only [oscTail] at h
    by_cases h1 : (c = '\x07')
    · rw [if_pos h1] at h
      cases h
      exact Nat.lt_succ_self _
    · rw [if_neg h1] at h
      exact Nat.lt_trans (ih r h) (Nat.lt_succ_self _)

/-! ## C1: connect_session on an unknown session -/

/-- C1 (amended): when the client holds no pipeConn for the sessionId and no
non-stale registry entry exists, connectToSession sends exactly one frame,
an error frame with message Session "sid" not found — it does not send a
status:disconnected frame — leaves the client state unchanged, and dials no
local stream endpoint. -/
theorem connectSession_unknown_session (now : Int) (files : List (Option RegRecord))
    (cs : ClientState) (sid : String)
    (hconn : cs.pipeSockets.find? (fun p => p.1 = sid) = none)
    (hsess : getSession now files sid = none) :
    connectToSession now files cs sid =
      (cs, [HubAction.send
        (HubFrame.errorF ("Session \"" ++ sid ++ "\" not found") (some sid))]) ∧
    (∀ p, HubAction.dial p ∉ (connectToSession now files cs sid).2) ∧
    (∀ s stt r,
      HubAction.send (HubFrame.statusF s stt r) ∉ (connectToSession now files cs sid).2) := by
  have h : connectToSession now files cs sid =
      (cs, [HubAction.send
        (HubFrame.errorF ("Session \"" ++ sid ++ "\" not found") (some sid))]) := by
    unfold connectToSession
    rw [hconn, hsess]
  refine ⟨h, ?_, ?_⟩
  · intro p
    rw [h]
    simp
  · intro s stt r
    rw [h]
    simp

/-- C1 counterexample to the claim as stated: at a concrete unknown session
the hub's response contains the error frame only — no status frame with
state disconnected accompanies it, and nothing is dialled. -/
theorem connectSession_unknown_session_counterexample :
    getSession 0 [] "proj" = none ∧
    (ClientState.mk [] none).pipeSockets = [] ∧
    connectToSession 0 [] (ClientState.mk [] none) "proj" =
      (ClientState.mk [] none,
       [HubAction.send (HubFrame.errorF "Session \"proj\" not found" (some "proj"))]) := by
  refine ⟨rfl, rfl, ?_⟩
  decide

/-- C1 witness: the amended theorem applied at the concrete unknown session. -/
theorem connectSession_unknown_session_witness :
    ((ClientState.mk [] none).pipeSockets.find? (fun p => p.1 = "proj") = none) ∧
    (getSession 0 [] "proj" = none) ∧
    (connectToSession 0 [] (ClientState.mk [] none) "proj" =
      (ClientState.mk [] none,
       [HubAction.send
         (HubFrame.errorF ("Session \"" ++ "proj" ++ "\" not found") (some "proj"))]) ∧
     (∀ p, HubAction.dial p ∉ (connectToSession 0 [] (ClientState.mk [] none) "proj").2) ∧
     (∀ s stt r, HubAction.send (HubFrame.statusF s stt r) ∉
        (connectToSession 0 [] (ClientState.mk [] none) "proj").2)) :=
  ⟨rfl, rfl, connectSession_unknown_session 0 [] (ClientState.mk [] none) "proj" rfl rfl⟩

/-! ## C5: connect_session on an already-attached, connected session -/

/-- C5: when the client already holds a connected pipeConn for the
sessionId, connectToSession makes that session active and sends exactly one
frame, status connected for that sessionId; the pipe table is unchanged (no
new pipeConn), nothing is dialled, and no relayed (scrollback) frame is
sent. -/
theorem connectSession_already_attached (now : Int) (files : List (Option RegRecord))
    (cs : ClientState) (sid : String) (pr : String × PipeConn)
    (hfind : cs.pipeSockets.find? (fun p => p.1 = sid) = some pr)
    (hconn : pr.2.connected = true) :
    connectToSession now files cs sid =
      ({ cs with activeSessionId := some sid },
       [HubAction.send (HubFrame.statusF (some sid) "connected" none)]) ∧
    (connectToSession now files cs sid).1.pipeSockets = cs.pipeSockets ∧
    (connectToSession now files cs sid).1.activeSessionId = some sid ∧
    (connectToSession now files cs sid).2.length = 1 ∧
    (∀ p, HubAction.dial p ∉ (connectToSession now files cs sid).2) ∧
    (∀ m, HubAction.send (HubFrame.relayF m) ∉ (connectToSession now files cs sid).2) := by
  have h : connectToSession now files cs sid =
      ({ cs with activeSessionId := some sid },
       [HubAction.send (HubFrame.statusF (some sid) "connected" none)]) := by
    unfold connectToSession
    rw [hfind]
    simp [hconn]
  refine ⟨h, ?_, ?_, ?_, ?_, ?_⟩
  · rw [h]
  · rw [h]
  · rw [h]
    rfl
  · intro p
    rw [h]
    simp
  · intro m
    rw [h]
    simp

/-- C5 witness: the theorem applied to a client already holding a connected
pipeConn for session s1. -/
theorem connectSession_already_attached_witness :
    ((ClientState.mk [("s1", PipeConn.mk "" true)] none).pipeSockets.find?
        (fun p => p.1 = "s1") = some ("s1", PipeConn.mk "" true)) ∧
    (("s1", PipeConn.mk "" true).2.connected = true) ∧
    (connectToSession 0 [] (ClientState.mk [("s1", PipeConn.mk "" true)] none) "s1" =
      ({ ClientState.mk [("s1", PipeConn.mk "" true)] none with
          activeSessionId := some "s1" },
       [HubAction.send (HubFrame.statusF (some "s1") "connected" none)]) ∧
     (connectToSession 0 [] (ClientState.mk [("s1", PipeConn.mk "" true)] none) "s1").1.pipeSockets =
        (ClientState.mk [("s1", PipeConn.mk "" true)] none).pipeSockets ∧
     (connectToSession 0 [] (ClientState.mk [("s1", PipeConn.mk "" true)] none) "s1").1.activeSessionId =
        some "s1" ∧
     (connectToSession 0 [] (ClientState.mk [("s1", PipeConn.mk "" true)] none) "s1").2.length = 1 ∧
     (∀ p, HubAction.dial p ∉
        (connectToSession 0 [] (ClientState.mk [("s1", PipeConn.mk "" true)] none) "s1").2) ∧
     (∀ m, HubAction.send (HubFrame.relayF m) ∉
        (connectToSession 0 [] (ClientState.mk [("s1", PipeConn.mk "" true)] none) "s1").2)) :=
  ⟨by decide, rfl,
   connectSession_already_attached 0 [] (ClientState.mk [("s1", PipeConn.mk "" true)] none)
     "s1" ("s1", PipeConn.mk "" true) (by decide) rfl⟩

/-! ## C9: relayed frames carry the pipe's sessionId; pong is swallowed -/

theorem processPipeLines_sessionId (sid : String) (parse : String → Option PipeMsg) :
    ∀ (ls : List String) (m : PipeMsg), m ∈ processPipeLines sid parse ls →
      m.sessionId = some sid ∧ m.type ≠ "pong" := by
  intro ls
  induction ls with
  | nil =>
    intro m h
    simp [processPipeLines] at h
  | cons line rest ih =>
    intro m h
    simp only [processPipeLines] at h
    by_cases hb : ((jsTrim line).data.isEmpty = true)
    · rw [if_pos hb] at h
      exact ih m h
    · rw [if_neg hb] at h
      cases hp : parse line with
      | some pm =>
        rw [hp] at h
        dsimp only at h
        by_cases ht : pm.type = "pong"
        · rw [if_pos ht] at h
          exact ih m h
        · rw [if_neg ht] at h
          rcases List.mem_cons.mp h with h1 | h2
          · subst h1
            exact ⟨rfl, ht⟩
          · exact ih m h2
      | none =>
        rw [hp] at h
        dsimp only at h
        rcases List.mem_cons.mp h with h1 | h2
        · subst h1
          refine ⟨rfl, ?_⟩
          show ("output" : String) ≠ "pong"
          decide
        · exact ih m h2

theorem processPipeLines_output (sid : String) (parse : String → Option PipeMsg) :
    ∀ (ls : List String) (line : String), line ∈ ls →
      ¬ (jsTrim line).data.isEmpty = true → parse line = none →
      (⟨"output", some line, none, none, none, some sid⟩ : PipeMsg) ∈
        processPipeLines sid parse ls := by
  intro ls
  induction ls with
  | nil =>
    intro line h
    simp at h
  | cons hd rest ih =>
    intro line hmem htrim hparse
    simp only [processPipeLines]
    rcases List.mem_cons.mp hmem with h1 | h2
    · subst h1
      rw [if_neg htrim, hparse]
      exact List.mem_cons_self _ _
    · have htail := ih line h2 htrim hparse
      by_cases hb : ((jsTrim hd).data.isEmpty = true)
      · rw [if_pos hb]
        exact htail
      · rw [if_neg hb]
        cases hp : parse hd with
        | some pm =>
          dsimp only
          by_cases ht : pm.type = "pong"
          · rw [if_pos ht]
            exact htail
          · rw [if_neg ht]
            exact List.mem_cons_of_mem _ htail
        | none =>
          dsimp only
          exact List.mem_cons_of_mem _ htail

/-- C9: every frame the pipe read path sends to the client carries the
sessionId of the pipe it arrived on and is never a pong (LSC pongs are
swallowed); moreover every complete non-blank line that fails JSON.parse is
forwarded as an output frame stamped with that same sessionId. -/
theorem pipeData_stamps_sessionId (sid : String) (parse : String → Option PipeMsg)
    (buffer chunk : String) :
    (∀ m ∈ (pipeData sid parse buffer chunk).sent,
       m.sessionId = some sid ∧ m.type ≠ "pong") ∧
    ((buffer ++ chunk).length ≤ MAX_PIPE_BUFFER_SIZE →
      ∀ line ∈ (jsSplit '\n' (buffer ++ chunk)).dropLast,
        ¬ (jsTrim line).data.isEmpty = true → parse line = none →
        (⟨"output", some line, none, none, none, some sid⟩ : PipeMsg) ∈
          (pipeData sid parse buffer chunk).sent) := by
  constructor
  · intro m hm
    unfold pipeData at hm
    by_cases hlen : MAX_PIPE_BUFFER_SIZE < (buffer ++ chunk).length
    · rw [if_pos hlen] at hm
      simp only [List.mem_cons, List.mem_singleton] at hm
      rcases hm with h1 | h1 | h1
      · subst h1
        refine ⟨rfl, ?_⟩
        show ("error" : String) ≠ "pong"
        decide
      · subst h1
        refine ⟨rfl, ?_⟩
        show ("status" : String) ≠ "pong"
        decide
      · simp at h1
    · rw [if_neg hlen] at hm
      exact processPipeLines_sessionId sid parse _ m hm
  · intro hlen line hline htrim hparse
    unfold pipeData
    rw [if_neg (Nat.not_lt.mpr hlen)]
    exact processPipeLines_output sid parse _ line hline htrim hparse

/-- C9 witness: a non-JSON line arriving on the pipe of session s is
forwarded as an output frame stamped with sessionId s, and the general
theorem applies to it. -/
theorem pipeData_stamps_sessionId_witness :
    ((⟨"output", some "x", none, none, none, some "s"⟩ : PipeMsg) ∈
       (pipeData "s" (fun _ => none) "" "x\n").sent) ∧
    ((⟨"output", some "x", none, none, none, some "s"⟩ : PipeMsg).sessionId = some "s" ∧
     (⟨"output", some "x", none, none, none, some "s"⟩ : PipeMsg).type ≠ "pong") :=
  ⟨by decide,
   (pipeData_stamps_sessionId "s" (fun _ => none) "" "x\n").1 _ (by decide)⟩

/-! ## C10: visibility window of disconnected machines -/

theorem mem_insertLe {α : Type} (le : α → α → Bool) (x a : α) :
    ∀ l : List α, a ∈ insertLe le x l ↔ a = x ∨ a ∈ l := by
  intro l
  induction l with
  | nil => simp [insertLe]
  | cons y ys ih =>
    simp only [insertLe]
    by_cases h : le x y = true
    · rw [if_pos h]
      simp [List.mem_cons]
    · rw [if_neg h]
      simp only [List.mem_cons, ih]
      tauto

theorem mem_sortLe {α : Type} (le : α → α → Bool) (a : α) :
    ∀ l : List α, a ∈ sortLe le l ↔ a ∈ l := by
  intro l
  induction l with
  | nil => simp [sortLe]
  | cons y ys ih =>
    simp only [sortLe, mem_insertLe, List.mem_cons, ih]

theorem cleanupMachine_some (now : Int) (m m2 : Machine)
    (h : cleanupMachine now m = some m2) :
    m2.id = m.id ∧ m2.lastSeen = m.lastSeen ∧ m2.isLocal = m.isLocal := by
  unfold cleanupMachine at h
  by_cases h1 : m.isLocal = true
  · rw [if_pos h1] at h
    cases h
    exact ⟨rfl, rfl, rfl⟩
  · rw [if_neg h1] at h
    dsimp only at h
    by_cases h2 : m.status = "connected" ∧ AGENT_HEARTBEAT_TIMEOUT < now - m.lastSeen
    · rw [if_pos h2] at h
      by_cases h3 : ("disconnected" : String) = "disconnected" ∧
          60 * 60 * 1000 < now - m.lastSeen
      · rw [if_pos h3] at h
        cases h
      · rw [if_neg h3] at h
        cases h
        exact ⟨rfl, rfl, rfl⟩
    · rw [if_neg h2] at h
      by_cases h3 : m.status = "disconnected" ∧ 60 * 60 * 1000 < now - m.lastSeen
      · rw [if_pos h3] at h
        cases h
      · rw [if_neg h3] at h
        cases h
        exact ⟨rfl, rfl, rfl⟩

theorem cleanupMachine_connected (now : Int) (m : Machine)
    (hl : m.isLocal = false) (hc : m.status = "connected") :
    cleanupMachine now m =
      if 60 * 60 * 1000 < now - m.lastSeen then none
      else some (if AGENT_HEARTBEAT_TIMEOUT < now - m.lastSeen then
          { m with status := "disconnected", ws := false } else m) := by
  have hcd : ¬ (("connected" : String) = "disconnected") := by decide
  unfold cleanupMachine
  rw [hl]
  by_cases h45 : AGENT_HEARTBEAT_TIMEOUT < now - m.lastSeen <;>
    by_cases h1h : (60 : Int) * 60 * 1000 < now - m.lastSeen
  · simp [hc, h45, h1h]
  · simp [hc, h45, h1h]
  · exfalso
    unfold AGENT_HEARTBEAT_TIMEOUT at h45
    omega
  · simp [hc, h45, h1h, hcd]
    omega

theorem cleanupMachine_disconnected (now : Int) (m : Machine)
    (hl : m.isLocal = false) (hc : m.status = "disconnected") :
    cleanupMachine now m =
      if 60 * 60 * 1000 < now - m.lastSeen then none else some m := by
  have hdc : ¬ (("disconnected" : String) = "connected") := by decide
  unfold cleanupMachine
  rw [hl]
  by_cases h1h : (60 : Int) * 60 * 1000 < now - m.lastSeen
  · simp [hc, h1h, hdc]
  · simp [hc, h1h, hdc]

theorem listMachineFilter_some (now : Int) (m : Machine) (e : MachineEntry)
    (h : listMachineFilter now m = some e) :
    e = machineEntry m ∧
    ¬ (m.status = "disconnected" ∧ AGENT_HEARTBEAT_TIMEOUT * 2 < now - m.lastSeen) := by
  unfold listMachineFilter at h
  by_cases hc : m.status = "disconnected" ∧ AGENT_HEARTBEAT_TIMEOUT * 2 < now - m.lastSeen
  · rw [if_pos hc] at h
    cases h
  · rw [if_neg hc] at h
    cases h
    exact ⟨rfl, hc⟩

/-- C10: a machine record with status disconnected is omitted from the
list_machines snapshot once now − lastSeen exceeds 90 s (twice the 45 s
heartbeat timeout); the sweeper deletes a non-local record exactly when
now − lastSeen exceeds 1 h (flipping a silent connected record to
disconnected exactly when now − lastSeen exceeds 45 s); hence an agent that
went silent while connected is reported with status disconnected only while
45 s < now − lastSeen ≤ 90 s. -/
theorem machine_visibility_window (now : Int) (ms : List Machine)
    (hnodup : (ms.map (fun m => m.id)).Nodup) :
    ∀ m ∈ ms,
      (m.status = "disconnected" → AGENT_HEARTBEAT_TIMEOUT * 2 < now - m.lastSeen →
        ∀ e ∈ listMachines now ms, e.id ≠ m.id) ∧
      (m.isLocal = false → (m.status = "connected" ∨ m.status = "disconnected") →
        ((∀ m2 ∈ cleanupStaleMachines now ms, m2.id ≠ m.id) ↔
          60 * 60 * 1000 < now - m.lastSeen)) ∧
      (m.isLocal = false → m.status = "connected" →
        ¬ (60 * 60 * 1000 < now - m.lastSeen) →
        ∃ m2 ∈ cleanupStaleMachines now ms, m2.id = m.id ∧
          m2.status = (if AGENT_HEARTBEAT_TIMEOUT < now - m.lastSeen
                       then "disconnected" else "connected")) ∧
      (m.isLocal = false → m.status = "connected" →
        ∀ e ∈ listMachines now (cleanupStaleMachines now ms), e.id = m.id →
          e.status = "disconnected" →
          AGENT_HEARTBEAT_TIMEOUT < now - m.lastSeen ∧
          now - m.lastSeen ≤ AGENT_HEARTBEAT_TIMEOUT * 2) := by
  intro m hm
  have hinj := List.inj_on_of_nodup_map hnodup
  refine ⟨?_, ?_, ?_, ?_⟩
  · -- omitted from listMachines once over the 90 s window
    intro hdisc hage e he heq
    unfold listMachines at he
    rw [mem_sortLe] at he
    obtain ⟨m2, hm2, hf⟩ := List.mem_filterMap.mp he
    obtain ⟨hee, hskip⟩ := listMachineFilter_some now m2 e hf
    have hid : m2.id = m.id := by
      rw [hee] at heq
      exact heq
    have : m2 = m := hinj hm2 hm hid
    subst this
    exact hskip ⟨hdisc, hage⟩
  · -- deleted by the sweeper exactly when over one hour
    intro hlocal hstat
    constructor
    · intro hall
      by_contra hage
      have hsome : ∃ m1, cleanupMachine now m = some m1 := by
        rcases hstat with hc | hc
        · rw [cleanupMachine_connected now m hlocal hc, if_neg hage]
          exact ⟨_, rfl⟩
        · rw [cleanupMachine_disconnected now m hlocal hc, if_neg hage]
          exact ⟨_, rfl⟩
      obtain ⟨m1, hm1⟩ := hsome
      have hmem : m1 ∈ cleanupStaleMachines now ms :=
        List.mem_filterMap.mpr ⟨m, hm, hm1⟩
      exact hall m1 hmem (cleanupMachine_some now m m1 hm1).1
    · intro hage m2 hm2 heq
      obtain ⟨m3, hm3, hg⟩ := List.mem_filterMap.mp hm2
      have hid3 : m3.id = m.id := by
        rw [← (cleanupMachine_some now m3 m2 hg).1]
        exact heq
      have : m3 = m := hinj hm3 hm hid3
      subst this
      rcases hstat with hc | hc
      · rw [cleanupMachine_connected now m3 hlocal hc, if_pos hage] at hg
        cases hg
      · rw [cleanupMachine_disconnected now m3 hlocal hc, if_pos hage] at hg
        cases hg
  · -- survives (possibly flipped) while within one hour
    intro hlocal hconn hage
    refine ⟨if AGENT_HEARTBEAT_TIMEOUT < now - m.lastSeen then
        { m with status := "disconnected", ws := false } else m, ?_, ?_, ?_⟩
    · apply List.mem_filterMap.mpr
      refine ⟨m, hm, ?_⟩
      rw [cleanupMachine_connected now m hlocal hconn, if_neg hage]
    · by_cases h45 : AGENT_HEARTBEAT_TIMEOUT < now - m.lastSeen
      · rw [if_pos h45]
      · rw [if_neg h45]
    · by_cases h45 : AGENT_HEARTBEAT_TIMEOUT < now - m.lastSeen
      · rw [if_pos h45, if_pos h45]
      · rw [if_neg h45, if_neg h45]
        exact hconn
  · -- a silent connected agent is reported disconnected only in (45 s, 90 s]
    intro hlocal hconn e he heq hedisc
    unfold listMachines at he
    rw [mem_sortLe] at he
    obtain ⟨m2, hm2, hf⟩ := List.mem_filterMap.mp he
    obtain ⟨hee, hskip⟩ := listMachineFilter_some now m2 e hf
    obtain ⟨m3, hm3, hg⟩ := List.mem_filterMap.mp hm2
    obtain ⟨hid2, hseen2, _⟩ := cleanupMachine_some now m3 m2 hg
    have hid3 : m3.id = m.id := by
      rw [← hid2, ← heq, hee]
      rfl
    have : m3 = m := hinj hm3 hm hid3
    subst this
    rw [cleanupMachine_connected now m3 hlocal hconn] at hg
    by_cases h1h : (60 : Int) * 60 * 1000 < now - m3.lastSeen
    · rw [if_pos h1h] at hg
      cases hg
    · rw [if_neg h1h] at hg
      have hm2eq : m2 = (if AGENT_HEARTBEAT_TIMEOUT < now - m3.lastSeen then
          { m3 with status := "disconnected", ws := false } else m3) := by
        cases hg
        rfl
      have hestatus : e.status = m2.status := by
        rw [hee]
        rfl
      by_cases h45 : AGENT_HEARTBEAT_TIMEOUT < now - m3.lastSeen
      · refine ⟨h45, ?_⟩
        have hdisc2 : m2.status = "disconnected" := by
          rw [hm2eq, if_pos h45]
        by_contra hgt
        apply hskip
        constructor
        · rw [hdisc2]
        · rw [hseen2]
          omega
      · exfalso
        have : m2.status = "connected" := by
          rw [hm2eq, if_neg h45]
          exact hconn
        rw [hestatus, this] at hedisc
        exact absurd hedisc (by decide)

/-- C10 witness: a concrete registry with the local hub record and one
remote agent, silent for 60 s with status disconnected: the theorem applies
and in particular the agent is omitted once 90 s have passed. -/
theorem machine_visibility_window_witness :
    ((([⟨"LOCAL", "hub", none, true, [], [], "connected", 100000, none, false⟩,
        ⟨"A", "peer", some "wss://a", false, [], [], "disconnected", 0, some "1.0.0", false⟩] :
        List Machine).map (fun m => m.id)).Nodup) ∧
    ((⟨"A", "peer", some "wss://a", false, [], [], "disconnected", 0, some "1.0.0", false⟩ :
        Machine) ∈
      ([⟨"LOCAL", "hub", none, true, [], [], "connected", 100000, none, false⟩,
        ⟨"A", "peer", some "wss://a", false, [], [], "disconnected", 0, some "1.0.0", false⟩] :
        List Machine)) ∧
    ((⟨"A", "peer", some "wss://a", false, [], [], "disconnected", 0, some "1.0.0", false⟩ :
        Machine).status = "disconnected" →
      AGENT_HEARTBEAT_TIMEOUT * 2 <
        (100000 : Int) -
          (⟨"A", "peer", some "wss://a", false, [], [], "disconnected", 0, some "1.0.0", false⟩ :
            Machine).lastSeen →
      ∀ e ∈ listMachines 100000
          ([⟨"LOCAL", "hub", none, true, [], [], "connected", 100000, none, false⟩,
            ⟨"A", "peer", some "wss://a", false, [], [], "disconnected", 0, some "1.0.0", false⟩] :
            List Machine),
        e.id ≠ (⟨"A", "peer", some "wss://a", false, [], [], "disconnected", 0, some "1.0.0", false⟩ :
          Machine).id) :=
  ⟨by decide, by decide,
   (machine_visibility_window 100000
      [⟨"LOCAL", "hub", none, true, [], [], "connected", 100000, none, false⟩,
       ⟨"A", "peer", some "wss://a", false, [], [], "disconnected", 0, some "1.0.0", false⟩]
      (by decide)
      ⟨"A", "peer", some "wss://a", false, [], [], "disconnected", 0, some "1.0.0", false⟩
      (by decide)).1⟩

/-! ## C6: per-second rate limiting; no message closes the socket -/

theorem dispatch_rate (env : HubEnv) (st : ConnState) (m : ClientMsg) :
    (dispatch env st m).1.rate = st.rate := by
  cases m <;> simp only [dispatch] <;> (repeat' split) <;> rfl

theorem connectToSession_no_close (now : Int) (files : List (Option RegRecord))
    (cs : ClientState) (sid : String) (c : Nat) :
    HubAction.close c ∉ (connectToSession now files cs sid).2 := by
  unfold connectToSession
  repeat' split
  all_goals simp

theorem handleCreateSession_no_close (env : HubEnv) (p : Option String) (c : Nat) :
    HubAction.close c ∉ handleCreateSession env p := by
  unfold handleCreateSession
  repeat' split
  all_goals simp

theorem handleStartFolderSession_no_close (env : HubEnv) (f : Option String)
    (sp : Bool) (c : Nat) :
    HubAction.close c ∉ handleStartFolderSession env f sp := by
  unfold handleStartFolderSession
  cases hs : sanitizeProjectName f with
  | none => simp
  | some safe =>
    dsimp only
    by_cases he : env.existsDir (projectsBaseDir env ++ "\\" ++ safe) = true <;>
      by_cases ha : ((listSessions env.now env.files).any fun s => s.id = safe) = true <;>
        simp [he, ha]

theorem dispatch_no_close (env : HubEnv) (st : ConnState) (m : ClientMsg) (c : Nat) :
    HubAction.close c ∉ (dispatch env st m).2 := by
  cases m with
  | connectSessionM sid => exact connectToSession_no_close env.now env.files st.cs sid c
  | createSessionM p => exact handleCreateSession_no_close env p c
  | startFolderSessionM f sp => exact handleStartFolderSession_no_close env f sp c
  | uploadFileM um =>
    simp only [dispatch]
    cases (handleFileUpload env.now env.files um st.cs.activeSessionId).2 <;> simp
  | inputM d =>
    simp only [dispatch]
    repeat' split
    all_goals simp
  | controlM k =>
    simp only [dispatch]
    repeat' split
    all_goals simp
  | resizeM cols rows =>
    simp only [dispatch]
    repeat' split
    all_goals simp
  | _ => simp [dispatch]

/-- The per-step trace specification of the message handler within one
rate-limit window: from a counter state (k, t0), with every arrival within
1000 ms of t0, the i-th message sees counter k+i; it is handled by the
dispatcher when k+i < 10 and answered by the Rate limit exceeded error
frame (and dropped) when k+i ≥ 10; no step ever emits a close. -/
theorem wsSteps_window_spec (env : HubEnv) (t0 : Int) :
    ∀ (msgs : List (Int × Option ClientMsg)) (st : ConnState) (k : Nat),
      st.rate = ⟨k, t0⟩ →
      (∀ e ∈ msgs, t0 ≤ e.1 ∧ e.1 - t0 < 1000) →
      (wsSteps env st msgs).length = msgs.length ∧
      ∀ i (hi : i < (wsSteps env st msgs).length) (hi2 : i < msgs.length),
        ((wsSteps env st msgs).get ⟨i, hi⟩).1.rate = ⟨k + i, t0⟩ ∧
        (MAX_MESSAGES_PER_SECOND ≤ k + i →
          ((wsSteps env st msgs).get ⟨i, hi⟩).2 =
            [HubAction.send (HubFrame.errorF "Rate limit exceeded" none)]) ∧
        (k + i < MAX_MESSAGES_PER_SECOND →
          ((wsSteps env st msgs).get ⟨i, hi⟩).2 =
            (match (msgs.get ⟨i, hi2⟩).2 with
             | none => []
             | some m =>
               (dispatch env
                 ⟨⟨k + i + 1, t0⟩, ((wsSteps env st msgs).get ⟨i, hi⟩).1.cs,
                  ((wsSteps env st msgs).get ⟨i, hi⟩).1.registry⟩ m).2)) ∧
        (∀ c, HubAction.close c ∉ ((wsSteps env st msgs).get ⟨i, hi⟩).2) := by
  intro msgs
  induction msgs with
  | nil =>
    intro st k hst hwin
    refine ⟨rfl, ?_⟩
    intro i hi hi2
    exact absurd hi2 (by simp)
  | cons e rest ih =>
    intro st k hst hwin
    obtain ⟨hnow1, hnow2⟩ := hwin e (List.mem_cons_self e rest)
    have hwrest : ∀ x ∈ rest, t0 ≤ x.1 ∧ x.1 - t0 < 1000 :=
      fun x hx => hwin x (List.mem_cons_of_mem e hx)
    have hnoreset : ¬ (1000 ≤ e.1 - st.rate.lastRateReset) := by
      rw [hst]
      intro hcon
      simp only at hcon
      omega
    have hr2 :
        (if 1000 ≤ e.1 - st.rate.lastRateReset then RateState.mk 0 e.1 else st.rate) =
          RateState.mk k t0 := by
      rw [if_neg hnoreset, hst]
    -- the step at the head of the list
    have hstep : wsMessage env st e.1 e.2 =
        (if MAX_MESSAGES_PER_SECOND < k + 1 then
          ({ st with rate := RateState.mk (k + 1) t0 },
           [HubAction.send (HubFrame.errorF "Rate limit exceeded" none)])
         else
           match e.2 with
           | none => ({ st with rate := RateState.mk (k + 1) t0 }, [])
           | some m => dispatch env { st with rate := RateState.mk (k + 1) t0 } m) := by
      unfold wsMessage
      dsimp only
      rw [hr2]
    have hrate1 : (wsMessage env st e.1 e.2).1.rate = RateState.mk (k + 1) t0 := by
      rw [hstep]
      by_cases hk : MAX_MESSAGES_PER_SECOND < k + 1
      · rw [if_pos hk]
      · rw [if_neg hk]
        cases hm : e.2 with
        | none => rfl
        | some m =>
          dsimp only
          rw [dispatch_rate]
    obtain ⟨ihlen, ihspec⟩ :=
      ih (wsMessage env st e.1 e.2).1 (k + 1) hrate1 hwrest
    constructor
    · show ((st, (wsMessage env st e.1 e.2).2) ::
          wsSteps env (wsMessage env st e.1 e.2).1 rest).length = (e :: rest).length
      rw [List.length_cons, List.length_cons, ihlen]
    · intro i hi hi2
      match i with
      | 0 =>
        constructor
        · show st.rate = RateState.mk (k + 0) t0
          rw [hst]
          simp
        constructor
        · intro hge
          show (wsMessage env st e.1 e.2).2 = _
          rw [hstep, if_pos (by omega)]
        constructor
        · intro hlt
          show (wsMessage env st e.1 e.2).2 = _
          rw [hstep, if_neg (by omega),
            show ((e :: rest).get ⟨0, hi2⟩) = e from rfl]
          cases e.2 <;> rfl
        · intro c
          show HubAction.close c ∉ (wsMessage env st e.1 e.2).2
          rw [hstep]
          by_cases hk : MAX_MESSAGES_PER_SECOND < k + 1
          · rw [if_pos hk]
            simp
          · rw [if_neg hk]
            cases e.2 with
            | none => simp
            | some m =>
              exact dispatch_no_close env _ m c
      | Nat.succ j =>
        have hj : j < (wsSteps env (wsMessage env st e.1 e.2).1 rest).length := by
          have : (wsSteps env st (e :: rest)).length =
              (wsSteps env (wsMessage env st e.1 e.2).1 rest).length + 1 := rfl
          omega
        have hj2 : j < rest.length := by
          rw [ihlen] at hj
          exact hj
        have hsh : (wsSteps env st (e :: rest)).get ⟨j + 1, hi⟩ =
            (wsSteps env (wsMessage env st e.1 e.2).1 rest).get ⟨j, hj⟩ := rfl
        have hsh2 : (e :: rest).get ⟨j + 1, hi2⟩ = rest.get ⟨j, hj2⟩ := rfl
        obtain ⟨ha, hb, hc2, hd⟩ := ihspec j hj hj2
        rw [hsh, hsh2]
        refine ⟨?_, ?_, ?_, hd⟩
        · rw [ha]
          congr 1
          omega
        · intro hge
          apply hb
          omega
        · intro hlt
          rw [hc2 (by omega)]
          have : k + 1 + j = k + (j + 1) := by omega
          rw [this]

/-- C6: within one rate-limit window (all arrivals within 1000 ms of the
window start, counter fresh), the first 10 inbound messages are handled by
the dispatcher exactly as if unthrottled, and every message beyond the
tenth is answered by an error frame with message Rate limit exceeded and
dropped; no inbound message ever produces a close of the WebSocket. -/
theorem rateLimit_per_second (env : HubEnv) (t0 : Int) (cs0 : ClientState)
    (reg0 : List Machine) (msgs : List (Int × Option ClientMsg))
    (hwin : ∀ e ∈ msgs, t0 ≤ e.1 ∧ e.1 - t0 < 1000) :
    (wsSteps env ⟨⟨0, t0⟩, cs0, reg0⟩ msgs).length = msgs.length ∧
    ∀ i (hi : i < (wsSteps env ⟨⟨0, t0⟩, cs0, reg0⟩ msgs).length)
        (hi2 : i < msgs.length),
      (MAX_MESSAGES_PER_SECOND ≤ i →
        ((wsSteps env ⟨⟨0, t0⟩, cs0, reg0⟩ msgs).get ⟨i, hi⟩).2 =
          [HubAction.send (HubFrame.errorF "Rate limit exceeded" none)]) ∧
      (i < MAX_MESSAGES_PER_SECOND →
        ((wsSteps env ⟨⟨0, t0⟩, cs0, reg0⟩ msgs).get ⟨i, hi⟩).2 =
          (match (msgs.get ⟨i, hi2⟩).2 with
           | none => []
           | some m =>
             (dispatch env
               ⟨⟨i + 1, t0⟩,
                ((wsSteps env ⟨⟨0, t0⟩, cs0, reg0⟩ msgs).get ⟨i, hi⟩).1.cs,
                ((wsSteps env ⟨⟨0, t0⟩, cs0, reg0⟩ msgs).get ⟨i, hi⟩).1.registry⟩ m).2)) ∧
      (∀ c, HubAction.close c ∉ ((wsSteps env ⟨⟨0, t0⟩, cs0, reg0⟩ msgs).get ⟨i, hi⟩).2) := by
  obtain ⟨hlen, hspec⟩ :=
    wsSteps_window_spec env t0 msgs ⟨⟨0, t0⟩, cs0, reg0⟩ 0 rfl hwin
  refine ⟨hlen, ?_⟩
  intro i hi hi2
  obtain ⟨_, hb, hc, hd⟩ := hspec i hi hi2
  simp only [Nat.zero_add] at hb hc
  exact ⟨hb, hc, hd⟩

/-- C6 witness: twelve ping messages inside one second — the first ten are
dispatched (each answered with pong) and the eleventh and twelfth get the
Rate limit exceeded error; in particular the trace evaluates to exactly
that. -/
theorem rateLimit_per_second_witness :
    (∀ e ∈ (List.replicate 12 ((0 : Int), some ClientMsg.pingM)),
        (0 : Int) ≤ e.1 ∧ e.1 - 0 < 1000) ∧
    (((wsSteps (HubEnv.mk 0 [] "h" false [] (fun _ => false))
        (ConnState.mk (RateState.mk 0 0) (ClientState.mk [] none) [])
        (List.replicate 12 ((0 : Int), some ClientMsg.pingM))).map Prod.snd) =
      List.replicate 10 [HubAction.send HubFrame.pongF] ++
        List.replicate 2 [HubAction.send (HubFrame.errorF "Rate limit exceeded" none)]) ∧
    ((wsSteps (HubEnv.mk 0 [] "h" false [] (fun _ => false))
        (ConnState.mk (RateState.mk 0 0) (ClientState.mk [] none) [])
        (List.replicate 12 ((0 : Int), some ClientMsg.pingM))).length =
      (List.replicate 12 ((0 : Int), some ClientMsg.pingM)).length ∧
     ∀ i (hi : i < (wsSteps (HubEnv.mk 0 [] "h" false [] (fun _ => false))
          (ConnState.mk (RateState.mk 0 0) (ClientState.mk [] none) [])
          (List.replicate 12 ((0 : Int), some ClientMsg.pingM))).length)
        (hi2 : i < (List.replicate 12 ((0 : Int), some ClientMsg.pingM)).length),
      (MAX_MESSAGES_PER_SECOND ≤ i →
        ((wsSteps (HubEnv.mk 0 [] "h" false [] (fun _ => false))
            (ConnState.mk (RateState.mk 0 0) (ClientState.mk [] none) [])
            (List.replicate 12 ((0 : Int), some ClientMsg.pingM))).get ⟨i, hi⟩).2 =
          [HubAction.send (HubFrame.errorF "Rate limit exceeded" none)]) ∧
      (i < MAX_MESSAGES_PER_SECOND →
        ((wsSteps (HubEnv.mk 0 [] "h" false [] (fun _ => false))
            (ConnState.mk (RateState.mk 0 0) (ClientState.mk [] none) [])
            (List.replicate 12 ((0 : Int), some ClientMsg.pingM))).get ⟨i, hi⟩).2 =
          (match ((List.replicate 12 ((0 : Int), some ClientMsg.pingM)).get ⟨i, hi2⟩).2 with
           | none => []
           | some m =>
             (dispatch (HubEnv.mk 0 [] "h" false [] (fun _ => false))
               ⟨⟨i + 1, 0⟩,
                ((wsSteps (HubEnv.mk 0 [] "h" false [] (fun _ => false))
                    (ConnState.mk (RateState.mk 0 0) (ClientState.mk [] none) [])
                    (List.replicate 12 ((0 : Int), some ClientMsg.pingM))).get ⟨i, hi⟩).1.cs,
                ((wsSteps (HubEnv.mk 0 [] "h" false [] (fun _ => false))
                    (ConnState.mk (RateState.mk 0 0) (ClientState.mk [] none) [])
                    (List.replicate 12 ((0 : Int), some ClientMsg.pingM))).get ⟨i, hi⟩).1.registry⟩
               m).2)) ∧
      (∀ c, HubAction.close c ∉
        ((wsSteps (HubEnv.mk 0 [] "h" false [] (fun _ => false))
            (ConnState.mk (RateState.mk 0 0) (ClientState.mk [] none) [])
            (List.replicate 12 ((0 : Int), some ClientMsg.pingM))).get ⟨i, hi⟩).2)) :=
  ⟨by decide, by decide,
   rateLimit_per_second (HubEnv.mk 0 [] "h" false [] (fun _ => false)) 0
     (ClientState.mk [] none) [] (List.replicate 12 ((0 : Int), some ClientMsg.pingM))
     (by decide)⟩

/-! ## C7: upload size boundary, sanitization failure, and path containment -/

theorem isPrefixOf_append_self : ∀ (l m : List Char), l.isPrefixOf (l ++ m) = true := by
  intro l m
  induction l with
  | nil => simp [List.isPrefixOf]
  | cons c cs ih => simp [List.isPrefixOf, ih]

theorem strStartsWith_append (a b : String) : strStartsWith (a ++ b) a = true := by
  unfold strStartsWith
  rw [String.data_append]
  exact isPrefixOf_append_self a.data b.data

theorem nodeJoin_startsWith (cwd name : String) :
    strStartsWith (nodeJoin cwd name) cwd = true := by
  unfold nodeJoin
  rw [String.append_assoc]
  exact strStartsWith_append cwd ("\\" ++ name)

/-- C7: for an upload against an existing session, a payload of exactly
MAX_UPLOAD_SIZE bytes is written to join(cwd, safeName) with
upload_result success; one byte over yields success:false with a size error
and no write; a filename that fails sanitization yields success:false and
no write; and every write that does happen lands at a path that starts with
the session's cwd. -/
theorem upload_size_and_path (now : Int) (files : List (Option RegRecord))
    (msg : UploadMsg) (active : Option String) (t : String) (session : SessEntry)
    (htarget : jsOrOpt msg.sessionId active = some t)
    (hsess : getSession now files t = some session) :
    (∀ safe, sanitizeO msg.filename = some safe →
      msg.data.length = MAX_UPLOAD_SIZE →
      handleFileUpload now files msg active =
        (⟨some t, true, some safe, none, some (nodeJoin session.cwd safe),
          some msg.data.length⟩,
         some (nodeJoin session.cwd safe, msg.data))) ∧
    (∀ safe, sanitizeO msg.filename = some safe →
      msg.data.length = MAX_UPLOAD_SIZE + 1 →
      handleFileUpload now files msg active =
        (⟨some t, false, some safe, some "File exceeds maximum size of 10MB",
          none, none⟩, none)) ∧
    (sanitizeO msg.filename = none →
      handleFileUpload now files msg active =
        (⟨some t, false, msg.filename, some "Invalid filename", none, none⟩, none)) ∧
    (∀ p bytes, (handleFileUpload now files msg active).2 = some (p, bytes) →
      strStartsWith p session.cwd = true) := by
  refine ⟨?_, ?_, ?_, ?_⟩
  · intro safe hsafe hlen
    have hsw := nodeJoin_startsWith session.cwd safe
    simp [handleFileUpload, UPLOAD_ENABLED, htarget, hsess, hsafe, hlen, hsw]
  · intro safe hsafe hlen
    simp [handleFileUpload, UPLOAD_ENABLED, htarget, hsess, hsafe, hlen]
  · intro hso
    simp [handleFileUpload, UPLOAD_ENABLED, htarget, hsess, hso]
  · intro p bytes hw
    cases hso : sanitizeO msg.filename with
    | none =>
      simp [handleFileUpload, UPLOAD_ENABLED, htarget, hsess, hso] at hw
    | some safe =>
      have hsw := nodeJoin_startsWith session.cwd safe
      by_cases hsz : MAX_UPLOAD_SIZE < msg.data.length
      · simp [handleFileUpload, UPLOAD_ENABLED, htarget, hsess, hso, hsz] at hw
      · simp [handleFileUpload, UPLOAD_ENABLED, htarget, hsess, hso, hsz, hsw] at hw
        rw [← hw.1]
        exact hsw

/-- C7 witness: a concrete session with one registry file; the theorem's
hypotheses are discharged and the exact-size upload result is instantiated
at a replicate buffer of MAX_UPLOAD_SIZE bytes. -/
theorem upload_size_and_path_witness :
    (jsOrOpt (some "s") none = some "s") ∧
    (getSession 1
        [some (RegRecord.mk "s" "C:\\p" 7 (some 1) (some 1) "pp" none none none)] "s" =
      some (SessEntry.mk "s" "C:\\p" 7 (some 1) (some 1) "pp" "" 0 "unknown")) ∧
    (sanitizeO (some "f.txt") = some "f.txt") ∧
    ((List.replicate MAX_UPLOAD_SIZE (0 : UInt8)).length = MAX_UPLOAD_SIZE) ∧
    (handleFileUpload 1
        [some (RegRecord.mk "s" "C:\\p" 7 (some 1) (some 1) "pp" none none none)]
        (UploadMsg.mk (some "s") (some "f.txt") (List.replicate MAX_UPLOAD_SIZE (0 : UInt8)))
        none =
      (⟨some "s", true, some "f.txt", none, some (nodeJoin "C:\\p" "f.txt"),
        some (List.replicate MAX_UPLOAD_SIZE (0 : UInt8)).length⟩,
       some (nodeJoin "C:\\p" "f.txt", List.replicate MAX_UPLOAD_SIZE (0 : UInt8)))) := by
  have hses : getSession 1
      [some (RegRecord.mk "s" "C:\\p" 7 (some 1) (some 1) "pp" none none none)] "s" =
      some (SessEntry.mk "s" "C:\\p" 7 (some 1) (some 1) "pp" "" 0 "unknown") := by
    decide
  have hlen : (List.replicate MAX_UPLOAD_SIZE (0 : UInt8)).length = MAX_UPLOAD_SIZE := by
    simp
  refine ⟨rfl, hses, by decide, hlen, ?_⟩
  have h := (upload_size_and_path 1
      [some (RegRecord.mk "s" "C:\\p" 7 (some 1) (some 1) "pp" none none none)]
      (UploadMsg.mk (some "s") (some "f.txt") (List.replicate MAX_UPLOAD_SIZE (0 : UInt8)))
      none "s" (SessEntry.mk "s" "C:\\p" 7 (some 1) (some 1) "pp" "" 0 "unknown")
      rfl hses).1 "f.txt" (by decide) hlen
  exact h

/-! ## Shared lemmas on the scrollback ring -/

theorem splitCharL_no_sep (sep : Char) :
    ∀ l : List Char, sep ∉ l → splitCharL sep l = [l] := by
  intro l
  induction l with
  | nil => intro _; rfl
  | cons c cs ih =>
    intro h
    have hcs : sep ∉ cs := fun hm => h (List.mem_cons_of_mem c hm)
    have hc : ¬ (c = sep) := fun he => h (he ▸ List.mem_cons_self c cs)
    simp only [splitCharL, ih hcs]
    rw [if_neg hc]

theorem byteLenL_replicate (n : Nat) (c : Char) :
    byteLenL (List.replicate n c) = n * chSize c := by
  unfold byteLenL
  rw [List.map_replicate, List.sum_replicate, smul_eq_mul]

theorem chSize_a : chSize 'a' = 1 := by decide

theorem joinNl_singleton (s : String) : joinNl [s] = s := by
  unfold joinNl
  simp [List.intercalate]

theorem appendOneLine_empty (s : String) :
    appendOneLine Scrollback.empty s = ⟨[s], byteLen s⟩ := by
  unfold appendOneLine shiftIfFull Scrollback.empty evictLoop
  simp [MAX_SCROLLBACK, SCROLLBACK_LINES]

theorem jsSplit_single (s : String) (h : '\n' ∉ s.data) : jsSplit '\n' s = [s] := by
  unfold jsSplit
  rw [splitCharL_no_sep '\n' s.data h]
  rfl

theorem longLine_no_newline : '\n' ∉ longLine.data := by
  intro h
  have := List.eq_of_mem_replicate h
  exact absurd this (by decide)

theorem appendScrollback_longLine :
    appendScrollback Scrollback.empty longLine = ⟨[longLine], 52000⟩ := by
  unfold appendScrollback
  rw [jsSplit_single longLine longLine_no_newline]
  show appendOneLine Scrollback.empty longLine = _
  rw [appendOneLine_empty]
  have : byteLen longLine = 52000 := by
    show byteLenL (List.replicate 52000 'a') = 52000
    rw [byteLenL_replicate, chSize_a]
  rw [this]

theorem longLine_ne_empty : ¬ (longLine = "") := by
  intro h
  have h2 := congrArg (fun s : String => s.data.length) h
  dsimp only at h2
  rw [show longLine.data = List.replicate 52000 'a' from rfl,
    List.length_replicate] at h2
  exact absurd h2 (by decide)

/-! ## C2: subscribe-time frames of the session launcher -/

/-- C2 (amended): on peer connect the launcher emits the ENTIRE ring joined
by newlines as one scrollback frame — there is no 50 KB or 200-line cap —
when the ring text is non-empty (and no scrollback frame at all when it is
empty), then the status connected frame, and only then any output frames;
any scrollback frame in the peer's trace carries exactly the whole ring. -/
theorem subscribe_frames_order (st : Scrollback) (chunks : List String) :
    (¬ (getScrollback st = "") →
      peerTrace st chunks =
        SLFrame.scrollbackF (getScrollback st) ::
          SLFrame.statusF "connected" :: chunks.map SLFrame.outputF) ∧
    (getScrollback st = "" →
      peerTrace st chunks =
        SLFrame.statusF "connected" :: chunks.map SLFrame.outputF) ∧
    (∀ d, SLFrame.scrollbackF d ∈ peerTrace st chunks → d = getScrollback st) ∧
    (∀ d, SLFrame.outputF d ∉ subscribeFrames st) := by
  refine ⟨?_, ?_, ?_, ?_⟩
  · intro hne
    unfold peerTrace subscribeFrames
    rw [if_neg hne]
    rfl
  · intro he
    unfold peerTrace subscribeFrames
    rw [if_pos he]
    rfl
  · intro d hd
    by_cases he : getScrollback st = ""
    · have htr : peerTrace st chunks =
          SLFrame.statusF "connected" :: chunks.map SLFrame.outputF := by
        unfold peerTrace subscribeFrames
        rw [if_pos he]
        rfl
      rw [htr] at hd
      rcases List.mem_cons.mp hd with h | h
      · exact absurd (congrArg SLFrame.type h)
          (by decide : ¬ ("scrollback" : String) = "status")
      · obtain ⟨c, _, h⟩ := List.mem_map.mp h
        exact absurd (congrArg SLFrame.type h)
          (by decide : ¬ ("output" : String) = "scrollback")
    · have htr : peerTrace st chunks =
          SLFrame.scrollbackF (getScrollback st) ::
            SLFrame.statusF "connected" :: chunks.map SLFrame.outputF := by
        unfold peerTrace subscribeFrames
        rw [if_neg he]
        rfl
      rw [htr] at hd
      rcases List.mem_cons.mp hd with h | h
      · have hdata := congrArg SLFrame.data h
        exact Option.some.inj hdata
      · rcases List.mem_cons.mp h with h | h
        · exact absurd (congrArg SLFrame.type h)
            (by decide : ¬ ("scrollback" : String) = "status")
        · obtain ⟨c, _, h⟩ := List.mem_map.mp h
          exact absurd (congrArg SLFrame.type h)
            (by decide : ¬ ("output" : String) = "scrollback")
  · intro d hd
    unfold subscribeFrames at hd
    by_cases he : getScrollback st = ""
    · rw [if_pos he] at hd
      rcases List.mem_cons.mp hd with h | h
      · exact absurd (congrArg SLFrame.type h)
          (by decide : ¬ ("output" : String) = "status")
      · simp at h
    · rw [if_neg he] at hd
      rcases List.mem_cons.mp hd with h | h
      · exact absurd (congrArg SLFrame.type h)
          (by decide : ¬ ("output" : String) = "scrollback")
      · rcases List.mem_cons.mp h with h | h
        · exact absurd (congrArg SLFrame.type h)
            (by decide : ¬ ("output" : String) = "status")
        · simp at h

/-- C2 counterexample to the claim as stated: after a single 52 000-byte
PTY line, the peer's first frame is a scrollback frame whose data is that
entire line — more than 50 KB (more than 50 * 1024 = 51 200 bytes, and
also more than 50 000), with no truncation. -/
theorem subscribe_no_cap_counterexample :
    subscribeFrames (appendScrollback Scrollback.empty longLine) =
      [SLFrame.scrollbackF longLine, SLFrame.statusF "connected"] ∧
    byteLen longLine = 52000 ∧
    50 * 1024 < byteLen longLine := by
  have hb : byteLen longLine = 52000 := by
    show byteLenL (List.replicate 52000 'a') = 52000
    rw [byteLenL_replicate, chSize_a]
  refine ⟨?_, hb, by rw [hb]; decide⟩
  rw [appendScrollback_longLine]
  unfold subscribeFrames
  have hg : getScrollback ⟨[longLine], 52000⟩ = longLine := joinNl_singleton longLine
  rw [hg, if_neg longLine_ne_empty]
  rfl

/-- C2 witness: the amended theorem applied to a one-line ring with one
later output chunk. -/
theorem subscribe_frames_order_witness :
    (¬ (getScrollback (appendScrollback Scrollback.empty "hi") = "")) ∧
    (peerTrace (appendScrollback Scrollback.empty "hi") ["out"] =
      SLFrame.scrollbackF (getScrollback (appendScrollback Scrollback.empty "hi")) ::
        SLFrame.statusF "connected" :: (["out"].map SLFrame.outputF)) :=
  ⟨by decide,
   (subscribe_frames_order (appendScrollback Scrollback.empty "hi") ["out"]).1 (by decide)⟩

/-! ## C4: the two scrollback ring caps -/

theorem evictLoop_spec (lineBytes : Nat) :
    ∀ (lines : List String) (bytes : Nat),
      bytes = (lines.map byteLen).sum →
      (evictLoop lineBytes lines bytes).2 =
          ((evictLoop lineBytes lines bytes).1.map byteLen).sum ∧
      (evictLoop lineBytes lines bytes).1.length ≤ lines.length ∧
      ((evictLoop lineBytes lines bytes).2 + lineBytes ≤ MAX_SCROLLBACK_BYTES ∨
        (evictLoop lineBytes lines bytes).1 = []) := by
  intro lines
  induction lines with
  | nil =>
    intro bytes hb
    exact ⟨hb, Nat.le_refl _, Or.inr rfl⟩
  | cons removed rest ih =>
    intro bytes hb
    unfold evictLoop
    by_cases hc : bytes + lineBytes > MAX_SCROLLBACK_BYTES
    · rw [if_pos hc]
      have hb2 : bytes - byteLen removed = (rest.map byteLen).sum := by
        rw [hb]
        simp only [List.map_cons, List.sum_cons]
        omega
      obtain ⟨h1, h2, h3⟩ := ih (bytes - byteLen removed) hb2
      exact ⟨h1, Nat.le_trans h2 (Nat.le_succ _), h3⟩
    · rw [if_neg hc]
      exact ⟨hb, Nat.le_refl _, Or.inl (by omega)⟩

theorem shiftIfFull_spec (st : Scrollback)
    (hwf : st.bytes = (st.lines.map byteLen).sum)
    (hlen : st.lines.length ≤ MAX_SCROLLBACK) :
    (shiftIfFull st).bytes = ((shiftIfFull st).lines.map byteLen).sum ∧
    (shiftIfFull st).lines.length ≤ MAX_SCROLLBACK - 1 := by
  unfold shiftIfFull
  by_cases hc : MAX_SCROLLBACK ≤ st.lines.length
  · rw [if_pos hc]
    cases hls : st.lines with
    | nil =>
      exfalso
      rw [hls] at hc
      simp only [List.length_nil, MAX_SCROLLBACK, SCROLLBACK_LINES] at hc
      omega
    | cons removed rest =>
      constructor
      · show st.bytes - byteLen removed = (rest.map byteLen).sum
        rw [hwf, hls]
        simp only [List.map_cons, List.sum_cons]
        omega
      · show rest.length ≤ MAX_SCROLLBACK - 1
        rw [hls] at hlen
        simp only [List.length_cons] at hlen
        omega
  · rw [if_neg hc]
    refine ⟨hwf, ?_⟩
    omega

theorem appendOneLine_inv (st : Scrollback) (line : String)
    (hwf : st.bytes = (st.lines.map byteLen).sum)
    (hlen : st.lines.length ≤ MAX_SCROLLBACK)
    (hl : byteLen line ≤ MAX_SCROLLBACK_BYTES) :
    (appendOneLine st line).bytes = ((appendOneLine st line).lines.map byteLen).sum ∧
    (appendOneLine st line).lines.length ≤ MAX_SCROLLBACK ∧
    (appendOneLine st line).bytes ≤ MAX_SCROLLBACK_BYTES := by
  obtain ⟨hwf1, hlen1⟩ := shiftIfFull_spec st hwf hlen
  obtain ⟨hwf2, hlen2, hbd⟩ :=
    evictLoop_spec (byteLen line) (shiftIfFull st).lines (shiftIfFull st).bytes hwf1
  have hres : appendOneLine st line =
      ⟨(evictLoop (byteLen line) (shiftIfFull st).lines (shiftIfFull st).bytes).1 ++ [line],
       (evictLoop (byteLen line) (shiftIfFull st).lines (shiftIfFull st).bytes).2 +
         byteLen line⟩ := rfl
  rw [hres]
  dsimp only
  refine ⟨?_, ?_, ?_⟩
  · simp only [List.map_append, List.sum_append, List.map_cons, List.sum_cons,
      List.map_nil, List.sum_nil]
    omega
  · simp only [List.length_append, List.length_cons, List.length_nil]
    have : MAX_SCROLLBACK - 1 + 1 ≤ MAX_SCROLLBACK := by
      simp [MAX_SCROLLBACK, SCROLLBACK_LINES]
    omega
  · rcases hbd with h | h
    · omega
    · rw [h] at hwf2
      simp only [List.map_nil, List.sum_nil] at hwf2
      omega

theorem foldl_append_inv :
    ∀ (ls : List String) (st : Scrollback),
      st.bytes = (st.lines.map byteLen).sum →
      st.lines.length ≤ MAX_SCROLLBACK →
      st.bytes ≤ MAX_SCROLLBACK_BYTES →
      (∀ l ∈ ls, byteLen l ≤ MAX_SCROLLBACK_BYTES) →
      (ls.foldl appendOneLine st).bytes =
          ((ls.foldl appendOneLine st).lines.map byteLen).sum ∧
      (ls.foldl appendOneLine st).lines.length ≤ MAX_SCROLLBACK ∧
      (ls.foldl appendOneLine st).bytes ≤ MAX_SCROLLBACK_BYTES := by
  intro ls
  induction ls with
  | nil =>
    intro st h1 h2 h3 _
    exact ⟨h1, h2, h3⟩
  | cons l rest ih =>
    intro st h1 h2 h3 hl
    have hll : byteLen l ≤ MAX_SCROLLBACK_BYTES := hl l (List.mem_cons_self l rest)
    obtain ⟨g1, g2, g3⟩ := appendOneLine_inv st l h1 h2 hll
    exact ih (appendOneLine st l) g1 g2 g3
      (fun x hx => hl x (List.mem_cons_of_mem l hx))

/-- C4 (amended): after every appendScrollback the ring holds at most
10 000 lines, the byte counter is exactly the UTF-8 size of the held lines,
and — provided every line of the appended data is itself at most 50 MB —
the byte total stays at most 50 MB. Over the line cap exactly one oldest
line is shifted per pushed line, while over the byte cap the while-loop
evicts as many oldest lines as needed (not exactly one, and a single line
larger than 50 MB enters the ring unbounded). -/
theorem scrollback_caps (st : Scrollback) (data : String)
    (hwf : st.bytes = (st.lines.map byteLen).sum)
    (hlen : st.lines.length ≤ MAX_SCROLLBACK)
    (hbytes : st.bytes ≤ MAX_SCROLLBACK_BYTES)
    (hl : ∀ l ∈ jsSplit '\n' data, byteLen l ≤ MAX_SCROLLBACK_BYTES) :
    (appendScrollback st data).bytes =
        ((appendScrollback st data).lines.map byteLen).sum ∧
    (appendScrollback st data).lines.length ≤ MAX_SCROLLBACK ∧
    (appendScrollback st data).bytes ≤ MAX_SCROLLBACK_BYTES := by
  unfold appendScrollback
  exact foldl_append_inv (jsSplit '\n' data) st hwf hlen hbytes hl

/-- C4 counterexample to the unconditional byte cap as claimed: appending a
single line one byte over 50 MB leaves the ring holding more than
MAX_SCROLLBACK_BYTES bytes — nothing is evicted because the ring is already
empty. -/
theorem scrollback_byte_cap_counterexample :
    (appendScrollback Scrollback.empty bigChunk).bytes = MAX_SCROLLBACK_BYTES + 1 ∧
    MAX_SCROLLBACK_BYTES < (appendScrollback Scrollback.empty bigChunk).bytes ∧
    (appendScrollback Scrollback.empty bigChunk).lines.length = 1 := by
  have hnn : '\n' ∉ bigChunk.data := by
    intro h
    have := List.eq_of_mem_replicate h
    exact absurd this (by decide)
  have hb : byteLen bigChunk = MAX_SCROLLBACK_BYTES + 1 := by
    show byteLenL (List.replicate (MAX_SCROLLBACK_BYTES + 1) 'a') = MAX_SCROLLBACK_BYTES + 1
    rw [byteLenL_replicate, chSize_a, Nat.mul_one]
  have happ : appendScrollback Scrollback.empty bigChunk =
      ⟨[bigChunk], MAX_SCROLLBACK_BYTES + 1⟩ := by
    unfold appendScrollback
    rw [jsSplit_single bigChunk hnn]
    show appendOneLine Scrollback.empty bigChunk = _
    rw [appendOneLine_empty, hb]
  rw [happ]
  refine ⟨rfl, ?_, rfl⟩
  simp

/-- C4 witness: the invariant theorem applied to an append of two small
lines to the empty ring. -/
theorem scrollback_caps_witness :
    ((Scrollback.empty.bytes = (Scrollback.empty.lines.map byteLen).sum) ∧
     (Scrollback.empty.lines.length ≤ MAX_SCROLLBACK) ∧
     (Scrollback.empty.bytes ≤ MAX_SCROLLBACK_BYTES) ∧
     (∀ l ∈ jsSplit '\n' "ab\nc", byteLen l ≤ MAX_SCROLLBACK_BYTES)) ∧
    ((appendScrollback Scrollback.empty "ab\nc").bytes =
        ((appendScrollback Scrollback.empty "ab\nc").lines.map byteLen).sum ∧
     (appendScrollback Scrollback.empty "ab\nc").lines.length ≤ MAX_SCROLLBACK ∧
     (appendScrollback Scrollback.empty "ab\nc").bytes ≤ MAX_SCROLLBACK_BYTES) :=
  ⟨⟨rfl, by decide, by decide, by decide⟩,
   scrollback_caps Scrollback.empty "ab\nc" rfl (by decide) (by decide) (by decide)⟩

/-! ## C3: the registry preview -/

set_option maxRecDepth 4000 in
/-- C3 (amended): the preview written by updateRegistry is the last at most
500 characters of the join of the last 8 scrollback lines, with no ANSI
stripping: it is a suffix of that join, never longer than 500 characters,
and equals the whole join whenever the join fits in 500 characters. -/
theorem preview_last500 (st : Scrollback) (sessionId pipeName workingDir : String)
    (pid : Nat) (startTime now : Int) (clientCount : Nat) :
    (updateRegistry st sessionId pipeName workingDir pid startTime now
        clientCount).preview =
      jsSliceNeg 500 (joinNl (lastN 8 st.lines)) ∧
    (updateRegistry st sessionId pipeName workingDir pid startTime now
        clientCount).preview.length ≤ 500 ∧
    (updateRegistry st sessionId pipeName workingDir pid startTime now
        clientCount).preview.data <:+ (joinNl (lastN 8 st.lines)).data ∧
    ((joinNl (lastN 8 st.lines)).length ≤ 500 →
      (updateRegistry st sessionId pipeName workingDir pid startTime now
          clientCount).preview = joinNl (lastN 8 st.lines)) := by
  refine ⟨rfl, ?_, ?_, ?_⟩
  · show (jsSliceNeg 500 (joinNl (lastN 8 st.lines))).length ≤ 500
    generalize joinNl (lastN 8 st.lines) = X
    show (X.data.drop (X.data.length - 500)).length ≤ 500
    rw [List.length_drop]
    omega
  · show (jsSliceNeg 500 (joinNl (lastN 8 st.lines))).data <:+
      (joinNl (lastN 8 st.lines)).data
    generalize joinNl (lastN 8 st.lines) = X
    show X.data.drop (X.data.length - 500) <:+ X.data
    exact List.drop_suffix _ _
  · show (joinNl (lastN 8 st.lines)).length ≤ 500 →
      jsSliceNeg 500 (joinNl (lastN 8 st.lines)) = joinNl (lastN 8 st.lines)
    generalize joinNl (lastN 8 st.lines) = X
    intro hle
    show (⟨X.data.drop (X.data.length - 500)⟩ : String) = X
    have hz : X.data.length - 500 = 0 := by
      have h5 : X.data.length ≤ 500 := hle
      omega
    rw [hz, List.drop_zero]

/-- C3 counterexample to the claim as stated: for a ring holding the single
line ESC [ 3 1 m a b c, the written preview keeps the ANSI escape verbatim
(and is char-sliced at 500, not 2 KB), while the spec's value — the last
≤ 2 KB of ANSI-stripped output truncated to the last 8 lines — is abc. -/
theorem preview_not_spec_counterexample :
    (updateRegistry ansiRing "s" "p" "c" 1 0 0 0).preview = "\x1b[31mabc" ∧
    specPreview (joinNl ansiRing.lines) = "abc" ∧
    (updateRegistry ansiRing "s" "p" "c" 1 0 0 0).preview ≠
      specPreview (joinNl ansiRing.lines) := by
  decide

/-- C3 witness: the amended theorem applied to a one-line ring whose join
fits in 500 characters. -/
theorem preview_last500_witness :
    ((joinNl (lastN 8 (appendScrollback Scrollback.empty "x").lines)).length ≤ 500) ∧
    ((updateRegistry (appendScrollback Scrollback.empty "x") "s" "p" "c" 1 0 0
        0).preview =
      joinNl (lastN 8 (appendScrollback Scrollback.empty "x").lines)) :=
  ⟨by decide,
   (preview_last500 (appendScrollback Scrollback.empty "x") "s" "p" "c" 1 0 0
      0).2.2.2 (by decide)⟩

/-! ## C8: idempotence of the filename sanitizer -/

theorem splitPredL_ne_nil (p : Char → Bool) : ∀ l, splitPredL p l ≠ [] := by
  intro l
  cases l with
  | nil => simp [splitPredL]
  | cons c cs =>
    simp only [splitPredL]
    cases h : splitPredL p cs with
    | nil => simp
    | cons r rs =>
      dsimp only
      by_cases hp : p c = true
      · rw [if_pos hp]
        simp
      · rw [if_neg hp]
        simp

theorem mem_splitPredL_length (p : Char → Bool) :
    ∀ (l x : List Char), x ∈ splitPredL p l → x.length ≤ l.length := by
  intro l
  induction l with
  | nil =>
    intro x hx
    simp [splitPredL] at hx
    simp [hx]
  | cons c cs ih =>
    intro x hx
    simp only [splitPredL] at hx
    cases h : splitPredL p cs with
    | nil => exact absurd h (splitPredL_ne_nil p cs)
    | cons r rs =>
      rw [h] at hx
      dsimp only at hx
      by_cases hp : p c = true
      · rw [if_pos hp] at hx
        rcases List.mem_cons.mp hx with h1 | h1
        · subst h1
          simp
        · have h2 := ih x (h ▸ h1)
          simp only [List.length_cons]
          omega
      · rw [if_neg hp] at hx
        rcases List.mem_cons.mp hx with h1 | h1
        · subst h1
          have hr : r ∈ splitPredL p cs := by
            rw [h]
            exact List.mem_cons_self _ _
          have h2 := ih r hr
          simp only [List.length_cons]
          omega
        · have hx2 : x ∈ splitPredL p cs := by
            rw [h]
            exact List.mem_cons_of_mem _ h1
          have h2 := ih x hx2
          simp only [List.length_cons]
          omega

theorem lastD_mem {α : Type} : ∀ (l : List α) (d : α), l ≠ [] → lastD l d ∈ l := by
  intro l
  induction l with
  | nil =>
    intro d h
    exact absurd rfl h
  | cons x xs ih =>
    intro d _
    cases xs with
    | nil =>
      unfold lastD
      rw [show ([x] : List α).getLast? = some x from rfl]
      exact List.mem_singleton.mpr rfl
    | cons y ys =>
      have h1 : lastD (x :: y :: ys) d = lastD (y :: ys) d := by
        unfold lastD
        rw [List.getLast?_cons_cons]
      rw [h1]
      exact List.mem_cons_of_mem x (ih d (by simp))

theorem splitPredL_all_false (p : Char → Bool) :
    ∀ l, (∀ c ∈ l, p c = false) → splitPredL p l = [l] := by
  intro l
  induction l with
  | nil => intro _; rfl
  | cons c cs ih =>
    intro h
    have hcs : ∀ x ∈ cs, p x = false := fun x hx => h x (List.mem_cons_of_mem c hx)
    have hc : p c = false := h c (List.mem_cons_self c cs)
    simp only [splitPredL, ih hcs]
    rw [if_neg (by simp [hc])]

theorem replReserved_not_sep (c : Char) : isSepChar (replReserved c) = false := by
  unfold replReserved
  by_cases h : isReservedChar c = true
  · rw [if_pos h]
    decide
  · rw [if_neg h]
    cases hs : isSepChar c with
    | false => rfl
    | true =>
      exfalso
      apply h
      simp only [isSepChar, Bool.or_eq_true, decide_eq_true_eq] at hs
      rcases hs with h1 | h1
      · subst h1
        decide
      · subst h1
        decide

theorem replReserved_not_reserved (c : Char) : isReservedChar (replReserved c) = false := by
  unfold replReserved
  by_cases h : isReservedChar c = true
  · rw [if_pos h]
    decide
  · rw [if_neg h]
    cases hb : isReservedChar c with
    | false => rfl
    | true => exact absurd hb h

theorem map_id_of_mem {α : Type} (f : α → α) :
    ∀ l : List α, (∀ a ∈ l, f a = a) → l.map f = l := by
  intro l
  induction l with
  | nil => intro _; rfl
  | cons x xs ih =>
    intro h
    simp only [List.map_cons]
    rw [h x (List.mem_cons_self x xs), ih (fun a ha => h a (List.mem_cons_of_mem x ha))]

theorem mem_dropRW {p : Char → Bool} {l : List Char} {a : Char}
    (h : a ∈ dropRightWhileP p l) : a ∈ l := by
  unfold dropRightWhileP at h
  rw [List.mem_reverse] at h
  have h2 := (List.dropWhile_sublist p).subset h
  rw [List.mem_reverse] at h2
  exact h2

theorem mem_strip {l : List Char} {a : Char} (h : a ∈ stripSpaceDot l) : a ∈ l := by
  unfold stripSpaceDot at h
  exact (List.dropWhile_sublist isSpaceDot).subset (mem_dropRW h)

theorem head?_dropWhile_false {α : Type} (p : α → Bool) :
    ∀ (l : List α) (a : α), (l.dropWhile p).head? = some a → p a = false := by
  intro l
  induction l with
  | nil =>
    intro a h
    simp [List.dropWhile] at h
  | cons c cs ih =>
    intro a h
    cases hp : p c with
    | true =>
      simp only [List.dropWhile_cons, hp, if_true] at h
      exact ih a h
    | false =>
      rw [List.dropWhile_cons, hp, if_neg (by decide : ¬ (false = true))] at h
      rw [show (c :: cs).head? = some c from rfl] at h
      cases Option.some.inj h
      exact hp

theorem dropWhile_eq_self_of_head {α : Type} (p : α → Bool) (l : List α)
    (h : ∀ a, l.head? = some a → p a = false) : l.dropWhile p = l := by
  cases l with
  | nil => rfl
  | cons c cs =>
    have hc := h c rfl
    simp [List.dropWhile_cons, hc]

theorem dropRW_eq_self_of_getLast (p : Char → Bool) (l : List Char)
    (h : ∀ a, l.getLast? = some a → p a = false) : dropRightWhileP p l = l := by
  unfold dropRightWhileP
  rw [dropWhile_eq_self_of_head p l.reverse ?_, List.reverse_reverse]
  intro a ha
  apply h
  rw [← List.head?_reverse]
  exact ha

theorem strip_head_false (l : List Char) (a : Char)
    (h : (stripSpaceDot l).head? = some a) : isSpaceDot a = false := by
  unfold stripSpaceDot at h
  have hsplit : ((l.dropWhile isSpaceDot).reverse.takeWhile isSpaceDot) ++
      ((l.dropWhile isSpaceDot).reverse.dropWhile isSpaceDot) =
      (l.dropWhile isSpaceDot).reverse :=
    List.takeWhile_append_dropWhile isSpaceDot (l.dropWhile isSpaceDot).reverse
  have hm2 : l.dropWhile isSpaceDot =
      dropRightWhileP isSpaceDot (l.dropWhile isSpaceDot) ++
        ((l.dropWhile isSpaceDot).reverse.takeWhile isSpaceDot).reverse := by
    unfold dropRightWhileP
    calc l.dropWhile isSpaceDot
        = (l.dropWhile isSpaceDot).reverse.reverse := (List.reverse_reverse _).symm
      _ = (((l.dropWhile isSpaceDot).reverse.takeWhile isSpaceDot) ++
            ((l.dropWhile isSpaceDot).reverse.dropWhile isSpaceDot)).reverse := by
            rw [hsplit]
      _ = ((l.dropWhile isSpaceDot).reverse.dropWhile isSpaceDot).reverse ++
            ((l.dropWhile isSpaceDot).reverse.takeWhile isSpaceDot).reverse := by
            rw [List.reverse_append]
  cases hd : dropRightWhileP isSpaceDot (l.dropWhile isSpaceDot) with
  | nil =>
    rw [hd] at h
    simp at h
  | cons x xs =>
    rw [hd] at h
    rw [show (x :: xs).head? = some x from rfl] at h
    have hxa : x = a := Option.some.inj h
    have hmx : (l.dropWhile isSpaceDot).head? = some x := by
      rw [hm2, hd]
      rfl
    have hfin := head?_dropWhile_false isSpaceDot l x hmx
    rw [hxa] at hfin
    exact hfin

theorem strip_last_false (l : List Char) (a : Char)
    (h : (stripSpaceDot l).getLast? = some a) : isSpaceDot a = false := by
  unfold stripSpaceDot dropRightWhileP at h
  rw [List.getLast?_reverse] at h
  exact head?_dropWhile_false isSpaceDot _ a h

theorem strip_eq_self (l : List Char)
    (hh : ∀ a, l.head? = some a → isSpaceDot a = false)
    (hl : ∀ a, l.getLast? = some a → isSpaceDot a = false) : stripSpaceDot l = l := by
  unfold stripSpaceDot
  rw [dropWhile_eq_self_of_head _ l hh]
  exact dropRW_eq_self_of_getLast _ l hl

theorem length_strip_le (l : List Char) : (stripSpaceDot l).length ≤ l.length := by
  unfold stripSpaceDot dropRightWhileP
  calc ((l.dropWhile isSpaceDot).reverse.dropWhile isSpaceDot).reverse.length
      = ((l.dropWhile isSpaceDot).reverse.dropWhile isSpaceDot).length :=
        List.length_reverse _
    _ ≤ (l.dropWhile isSpaceDot).reverse.length :=
        (List.dropWhile_sublist _).length_le
    _ = (l.dropWhile isSpaceDot).length := List.length_reverse _
    _ ≤ l.length := (List.dropWhile_sublist _).length_le

theorem sanitizeCore_fixed :
    ∀ (l : List Char), l.length ≤ 255 →
      ∀ y, sanitizeCore l = some y → sanitizeCore y = some y := by
  intro l hlen y hy
  simp only [sanitizeCore] at hy
  by_cases he : l.isEmpty = true
  · rw [if_pos he] at hy
    cases hy
  · rw [if_neg he] at hy
    set base := lastD (splitPredL isSepChar l) [] with hbase
    set m := base.map replReserved with hmm2
    set w := stripSpaceDot m with hww
    by_cases hchk : w = [] ∨ w = ['.'] ∨ w = ['.', '.']
    · rw [if_pos hchk] at hy
      cases hy
    · rw [if_neg hchk] at hy
      have hmemb : base ∈ splitPredL isSepChar l := by
        rw [hbase]
        exact lastD_mem _ _ (splitPredL_ne_nil isSepChar l)
      have hblen : base.length ≤ l.length := mem_splitPredL_length isSepChar l base hmemb
      have hmlen : m.length = base.length := by
        rw [hmm2, List.length_map]
      have hwlen : w.length ≤ 255 := by
        have h1 : w.length ≤ m.length := by
          rw [hww]
          exact length_strip_le m
        omega
      rw [if_neg (by omega : ¬ (255 < w.length))] at hy
      have hyw : y = w := (Option.some.inj hy).symm
      subst hyw
      have hwne : w ≠ [] := fun h => hchk (Or.inl h)
      have hnosep : ∀ c ∈ w, isSepChar c = false := by
        intro c hc
        have hcm : c ∈ m := mem_strip (hww ▸ hc)
        rw [hmm2] at hcm
        obtain ⟨c0, _, hc0⟩ := List.mem_map.mp hcm
        rw [← hc0]
        exact replReserved_not_sep c0
      have hnores : ∀ c ∈ w, isReservedChar c = false := by
        intro c hc
        have hcm : c ∈ m := mem_strip (hww ▸ hc)
        rw [hmm2] at hcm
        obtain ⟨c0, _, hc0⟩ := List.mem_map.mp hcm
        rw [← hc0]
        exact replReserved_not_reserved c0
      have hie : w.isEmpty = false := by
        cases hwc : w with
        | nil => exact absurd hwc hwne
        | cons _ _ => rfl
      simp only [sanitizeCore]
      rw [if_neg (by simp [hie])]
      rw [splitPredL_all_false isSepChar w hnosep]
      rw [show lastD [w] ([] : List Char) = w from rfl]
      rw [map_id_of_mem replReserved w
        (fun a ha => by
          unfold replReserved
          rw [if_neg (by simp [hnores a ha])])]
      rw [strip_eq_self w
        (fun a ha => strip_head_false m a (hww ▸ ha))
        (fun a ha => strip_last_false m a (hww ▸ ha))]
      rw [if_neg hchk]
      rw [if_neg (by omega : ¬ (255 < w.length))]

/-- C8 (amended): the filename sanitizer is idempotent on every input of at
most 255 characters (and a rejected result stays rejected); on longer
inputs the 255-character truncation can leave a trailing space or dot — or
even lengthen the name when the extension itself exceeds 255 characters —
so a second sanitize differs. -/
theorem sanitize_idem (s : String) (h : s.length ≤ 255) :
    sanitizeO (sanitizeFilename s) = sanitizeFilename s := by
  unfold sanitizeFilename
  cases hc : sanitizeCore s.data with
  | none => rfl
  | some y =>
    have hy := sanitizeCore_fixed s.data h y hc
    show sanitizeO (some (String.mk y)) = some (String.mk y)
    show sanitizeFilename (String.mk y) = some (String.mk y)
    unfold sanitizeFilename
    rw [show (String.mk y).data = y from rfl, hy]
    rfl

set_option maxRecDepth 8000 in
/-- C8 counterexample to unconditional idempotence: for the 257-character
name of 254 b characters, a space, and two c characters, the first sanitize
truncates to 255 characters ending in a space, and the second sanitize
strips that trailing space, giving a different (254-character) result. -/
theorem sanitize_idem_counterexample :
    sanitizeFilename overlongName = some (String.mk (List.replicate 254 'b' ++ [' '])) ∧
    sanitizeO (sanitizeFilename overlongName) =
      some (String.mk (List.replicate 254 'b')) ∧
    sanitizeO (sanitizeFilename overlongName) ≠ sanitizeFilename overlongName := by
  decide

/-- C8 witness: the amended idempotence applied to a short filename. -/
theorem sanitize_idem_witness :
    (("doc.pdf" : String).length ≤ 255) ∧
    (sanitizeO (sanitizeFilename "doc.pdf") = sanitizeFilename "doc.pdf") :=
  ⟨by decide, sanitize_idem "doc.pdf" (by decide)⟩

end CNM

